import Mathlib

/-!
# Verification of the book-source-cli orchestration pipeline

This file is a shallow embedding of `lib/cli.js` from the `book-source-cli`
repository.  The CLI loads a Book Source document (or a package descriptor),
aggregates its source files, parses them via an external parser, applies
post-filters, resolves a theme, renders via a registry of renderers and
writes the result to stdout or a file.

External collaborators (the markup parser, the renderers, the configuration
loader, the file system) are modelled as components of an `Env` record; the
orchestration logic itself is translated statement by statement from the
source.  Observable actions (console messages, file reads, the post-filter
invocation, the render invocation, stdout/file writes) are recorded in an
effect trace, and early `process.exit` / thrown exceptions are modelled with
an `Except` result.

Node.js path primitives used by the source (`path.extname`, `path.dirname`,
`path.join`, `path.isAbsolute`, posix flavour) are transliterated from the
Node.js implementation, since the orchestration behaviour depends on them.
-/

/-! ## JavaScript values

Package records loaded from `.kfg`/`.json` descriptors are arbitrary
JavaScript data.  `JVal` models them; `undefined` is represented by absence
(an `Option` at use sites, or a missing object field). -/

inductive JVal where
  | vnull : JVal
  | vbool : Bool → JVal
  | vnum : Int → JVal
  | vstr : String → JVal
  | varr : List JVal → JVal
  | vobj : List (String × JVal) → JVal
deriving Inhabited

/-- Field lookup on an object (`pkg.field`); `none` models `undefined`.
Property access on a non-object JS array also yields `undefined` for the
record fields used by the CLI (`sources`, `postFilters`, `theme`). -/
def getField : JVal → String → Option JVal
  | .vobj fs, k => fs.lookup k
  | _, _ => none

/-- Update (or add) a field of an association list. -/
def setFields : List (String × JVal) → String → JVal → List (String × JVal)
  | [], k, v => [(k, v)]
  | (k', v') :: rest, k, v =>
    if k' = k then (k, v) :: rest else (k', v') :: setFields rest k v

/-- JS property assignment on an object.  (Assignment on a non-object is
handled at the call site, because in strict mode it throws on primitives.) -/
def setField : JVal → String → JVal → JVal
  | .vobj fs, k, v => .vobj (setFields fs k v)
  | p, _, _ => p

/-- JS truthiness of a value. -/
def truthy : JVal → Bool
  | .vnull => false
  | .vbool b => b
  | .vnum n => n != 0
  | .vstr s => s != ""
  | .varr _ => true
  | .vobj _ => true

/-- The test `typeof x === 'object'` (true for `null`, arrays and plain objects). -/
def isObjType : JVal → Bool
  | .vnull => true
  | .varr _ => true
  | .vobj _ => true
  | _ => false

/-- The test `x && typeof x === 'object'` applied to a possibly-`undefined`
value: a truthy value of object type, i.e. a non-null object or array. -/
def truthyObj : Option JVal → Bool
  | some v => truthy v && isObjType v
  | none => false

/-! ## Node.js posix path primitives

Transliterated from Node's `lib/path.js` (posix implementations). -/

/-- Node's `path.isAbsolute` (posix): the path starts with a slash.  (Written on
the character list so that it evaluates by kernel reduction.) -/
def isAbsolute (p : String) : Bool :=
  match p.data with
  | '/' :: _ => true
  | _ => false

/-- Split a character list at every occurrence of `sep`, like JS
`String.prototype.split` with a one-character separator (and like
`String.splitOn` for a one-character separator). -/
def splitOnChar (sep : Char) : List Char → List Char → List String
  | [], acc => [String.mk acc.reverse]
  | c :: rest, acc =>
    if c = sep then String.mk acc.reverse :: splitOnChar sep rest []
    else splitOnChar sep rest (c :: acc)

/-- The path ends with a slash. -/
def endsWithSlash (p : String) : Bool := p.data.getLast? == some '/'

/-- Loop state of Node's `path.extname` scan.  `none` models the `-1`
sentinel of the original indices. -/
structure ExtScanSt where
  startDot : Option Nat
  startPart : Nat
  stopIdx : Option Nat
  matchedSlash : Bool
  preDotState : Int

/-- The backwards character scan of Node's posix `path.extname`, over the
reversed list of (index, character) pairs.  Hitting a slash after a
non-slash character sets `startPart` and stops the scan (the `break`). -/
def extnameLoop : List (Nat × Char) → ExtScanSt → ExtScanSt
  | [], st => st
  | (i, c) :: rest, st =>
    if c = '/' then
      if st.matchedSlash then extnameLoop rest st
      else { st with startPart := i + 1 }
    else
      let st1 :=
        if st.stopIdx.isNone then { st with matchedSlash := false, stopIdx := some (i + 1) }
        else st
      let st2 :=
        if c = '.' then
          if st1.startDot.isNone then { st1 with startDot := some i }
          else if st1.preDotState ≠ 1 then { st1 with preDotState := 1 }
          else st1
        else if st1.startDot.isSome then { st1 with preDotState := -1 }
        else st1
      extnameLoop rest st2

/-- Node's posix `path.extname`.  Returns the extension including the
leading dot (`"a/b.bks"` gives `".bks"`), and `""` when the basename has no
dot, when its only dot is the leading character (`".bashrc"` gives `""`),
or when the basename is `".."`. -/
def extname (p : String) : String :=
  let cs := p.data
  let st := extnameLoop ((List.range cs.length).zip cs).reverse
    { startDot := none, startPart := 0, stopIdx := none, matchedSlash := true, preDotState := 0 }
  match st.startDot, st.stopIdx with
  | some sd, some e =>
    if st.preDotState = 0 ∨ (st.preDotState = 1 ∧ sd + 1 = e ∧ sd = st.startPart + 1) then ""
    else String.mk ((cs.drop sd).take (e - sd))
  | _, _ => ""

/-- The backwards scan of Node's posix `path.dirname` (indices down to 1):
returns the index of the slash ending the directory part, if any. -/
def dirnameLoop : List (Nat × Char) → Bool → Option Nat
  | [], _ => none
  | (i, c) :: rest, matchedSlash =>
    if c = '/' then
      if matchedSlash then dirnameLoop rest matchedSlash else some i
    else dirnameLoop rest false

/-- Node's posix `path.dirname`. -/
def dirname (p : String) : String :=
  if p = "" then "." else
  let cs := p.data
  let hasRoot := cs.head? = some '/'
  match dirnameLoop (((List.range cs.length).zip cs).reverse.dropLast) true with
  | none => if hasRoot then "/" else "."
  | some e => if hasRoot ∧ e = 1 then "//" else String.mk (cs.take e)

/-- Segment resolution of Node's `normalizeString`: drops empty and `"."`
segments and resolves `".."` against the accumulated stack (above-root
`".."` segments are kept only for relative paths). -/
def normSegs (allowAboveRoot : Bool) : List String → List String → List String
  | [], acc => acc.reverse
  | s :: rest, acc =>
    if s = "" ∨ s = "." then normSegs allowAboveRoot rest acc
    else if s = ".." then
      match acc with
      | [] =>
        if allowAboveRoot then normSegs allowAboveRoot rest [".."]
        else normSegs allowAboveRoot rest []
      | t :: acc' =>
        if t = ".." then normSegs allowAboveRoot rest (".." :: t :: acc')
        else normSegs allowAboveRoot rest acc'
    else normSegs allowAboveRoot rest (s :: acc)

/-- Node's posix `path.normalize`. -/
def normalizePath (p : String) : String :=
  if p = "" then "." else
  let isAbs := isAbsolute p
  let trailingSep := endsWithSlash p
  let body := String.intercalate "/" (normSegs (¬ isAbs) (splitOnChar '/' p.data []) [])
  if body = "" then
    if isAbs then "/" else if trailingSep then "./" else "."
  else
    let body := if trailingSep then body ++ "/" else body
    if isAbs then "/" ++ body else body

/-- Node's posix `path.join` restricted to two arguments, as used by the
source (`path.join(baseDir, fullPath)`). -/
def pjoin (a b : String) : String :=
  let joined := String.intercalate "/" (([a, b].filter (fun s => s ≠ "")))
  if joined = "" then "." else normalizePath joined

/-- JS `String.prototype.toLowerCase` restricted to the basic latin
letters actually occurring in format names. -/
def toLowerCase (s : String) : String := String.mk (s.data.map Char.toLower)

/-- JS `.slice( 1 )` on the extension string, dropping the leading dot. -/
def slice1 (s : String) : String := String.mk (s.data.drop 1)

/-! ## Pipeline data model -/

/-- The structured document produced by the external parser
(`bookSource.parse`).  Only its embedded `theme` property is inspected by
the orchestrator; `payload` is an opaque identity letting the environment
distinguish documents. -/
structure Doc where
  dtheme : Option JVal
  payload : Nat

/-- A theme instance: either `new bookSource.Theme()` or
`new bookSource.Theme(params)`.  The class itself is external; the
orchestrator only chooses which constructor call is made. -/
inductive Theme where
  | defaultTheme : Theme
  | fromObj : JVal → Theme

/-- Observable actions of one CLI invocation, in order. -/
inductive Effect where
  | errMsg : String → Effect
  | displayHelp : Effect
  | readFile : String → Effect
  | postFilterCall : List JVal → Effect
  | renderCall : String → Doc → Theme → JVal → Effect
  | stdoutWrite : String → Effect
  | fileWrite : String → String → Effect

/-- How an invocation terminates early: `process.exit(code)`, or an
uncaught exception (which makes Node exit non-zero). -/
inductive Abort where
  | exited : Nat → Abort
  | threw : Abort
deriving DecidableEq

/-- External collaborators and system state for one invocation.  A `none` /
`false` result models the collaborator throwing (or the I/O call failing). -/
structure Env where
  cwd : String
  readFile : String → Option String
  kfgLoad : String → Option JVal
  jsonLoad : String → Option JVal
  parse : String → Option Doc
  textPostFilter : Doc → List JVal → Option Doc
  render : String → Doc → Theme → JVal → Option String
  writeFile : String → String → Bool

/-- The validated options record produced by the argument parser
(`utterminal`): positional `source`, `--output`, `--format` (default
`"html"`), repeatable `--post-filter` (absent is `undefined`, hence
`Option`), `--fragment` flag. -/
structure Args where
  source : String
  output : Option String
  format : String
  postFilter : Option (List String)
  fragment : Bool

/-! ## Trace extractors -/

/-- The strings written to stdout within a trace. -/
def stdoutWrites (l : List Effect) : List String :=
  l.filterMap fun e => match e with
    | .stdoutWrite s => some s
    | _ => none

/-- The (path, content) pairs successfully written to files within a trace. -/
def fileWrites (l : List Effect) : List (String × String) :=
  l.filterMap fun e => match e with
    | .fileWrite p c => some (p, c)
    | _ => none

/-- The paths of attempted source-file reads within a trace. -/
def readCalls (l : List Effect) : List String :=
  l.filterMap fun e => match e with
    | .readFile p => some p
    | _ => none

/-- The argument lists of `textPostFilter` invocations within a trace. -/
def filterCalls (l : List Effect) : List (List JVal) :=
  l.filterMap fun e => match e with
    | .postFilterCall fs => some fs
    | _ => none

/-- The renderer invocations within a trace. -/
def renderCallsOf (l : List Effect) : List (String × Doc × Theme × JVal) :=
  l.filterMap fun e => match e with
    | .renderCall f d th p => some (f, d, th, p)
    | _ => none

/-! ## The pipeline stages (translated from `lib/cli.js`) -/

/-- Sequencing of pipeline stages: effects accumulate; an abort short
circuits the rest of the run. -/
def ebind {α β : Type} (x : List Effect × Except Abort α)
    (f : α → List Effect × Except Abort β) : List Effect × Except Abort β :=
  match x with
  | (effs, .error a) => (effs, .error a)
  | (effs, .ok v) =>
    let r := f v
    (effs ++ r.1, r.2)

/-- The `switch (extension)` of `cli()`: dispatches on
`path.extname(args.source).slice(1)`, producing the package record, the
base directory, and the `isPackage` flag, or aborting with the
unsupported-extension error. -/
def loadPackage (env : Env) (source : String) :
    List Effect × Except Abort (JVal × String × Bool) :=
  let cwd := env.cwd ++ "/"
  let extension := slice1 (extname source)
  if extension = "bks" then
    ([], .ok (JVal.vobj [("sources", JVal.varr [JVal.vstr source])], cwd, false))
  else if extension = "kfg" then
    let p := if isAbsolute source then source else cwd ++ source
    match env.kfgLoad p with
    | some pkg => ([], .ok (pkg, dirname p ++ "/", true))
    | none => ([], .error .threw)
  else if extension = "json" then
    let p := if isAbsolute source then source else cwd ++ source
    match env.jsonLoad p with
    | some pkg => ([], .ok (pkg, dirname p ++ "/", true))
    | none => ([], .error .threw)
  else
    ([.errMsg ("Cannot load file with extension ." ++ extension), .displayHelp],
     .error (.exited 1))

/-- The assignment `package_.standalone = ! args.fragment`.  In strict mode, property
assignment throws on primitives and `null`; on an array the property is
attached but never observable afterwards (the run aborts at the sources
check), so the array is kept unchanged. -/
def standaloneStage (fragment : Bool) (pkg : JVal) :
    List Effect × Except Abort JVal :=
  match pkg with
  | .vobj fs => ([], .ok (.vobj (setFields fs "standalone" (.vbool (!fragment)))))
  | .varr l => ([], .ok (.varr l))
  | _ => ([], .error .threw)

/-- The renderer registry keys, in definition order
(`Object.keys(renderers)`). -/
def availableRenderers : List String := ["html", "json", "kfg", "inspect"]

/-- The lowering `args.format = args.format.toLowerCase()` followed by the
registry-membership check. -/
def formatStage (format0 : String) : List Effect × Except Abort String :=
  let format := toLowerCase format0
  if availableRenderers.contains format then ([], .ok format)
  else
    ([.errMsg ("Unsupported format \x27" ++ format ++ "\x27."), .displayHelp],
     .error (.exited 1))

/-- The check `if (!Array.isArray(package_.sources) || !package_.sources.length)`. -/
def sourcesStage (pkg : JVal) : List Effect × Except Abort (List JVal) :=
  match getField pkg "sources" with
  | some (.varr (x :: xs)) => ([], .ok (x :: xs))
  | _ => ([.errMsg "No source specified in the package."], .error (.exited 1))

/-- The per-entry path resolution of the aggregation loop:
`if ( ! path.isAbsolute( fullPath ) ) { fullPath = path.join( baseDir , fullPath ) ; }`
`if ( ! path.extname( fullPath ) ) { fullPath += '.bks' ; }`. -/
def resolveOne (baseDir s : String) : String :=
  let fullPath0 := if isAbsolute s then s else pjoin baseDir s
  if extname fullPath0 = "" then fullPath0 ++ ".bks" else fullPath0

/-- The source-aggregation loop (`for ( let sourcePath of package_.sources )`):
resolve each entry, read the file, and append to the accumulator, inserting
a newline separator when the accumulator is non-empty
(`if ( rawContent ) { rawContent += '\n' ; }`).  A read failure prints the
original entry and exits 1; a non-string entry makes `path.isAbsolute`
throw. -/
def aggregate (env : Env) (baseDir : String) :
    List JVal → String → List Effect × Except Abort String
  | [], acc => ([], .ok acc)
  | .vstr s :: rest, acc =>
    let fullPath := resolveOne baseDir s
    match env.readFile fullPath with
    | none =>
      ([.readFile fullPath, .errMsg ("Error reading source file \x27" ++ s ++ "\x27:")],
       .error (.exited 1))
    | some content =>
      let acc1 := if acc ≠ "" then acc ++ "\n" else acc
      let r := aggregate env baseDir rest (acc1 ++ content)
      (.readFile fullPath :: r.1, r.2)
  | _ :: _, _ => ([], .error .threw)

/-- The call `bookSource.parse(rawContent, ...)`; a parse failure is an uncaught
exception. -/
def parseStage (env : Env) (raw : String) : List Effect × Except Abort Doc :=
  match env.parse raw with
  | some d => ([], .ok d)
  | none => ([], .error .threw)

/-- The post-filter stage: package-declared filters first, then CLI
filters; `textPostFilter` is invoked only when the combined list is
non-empty. -/
def filterStage (env : Env) (pkg : JVal) (argPF : Option (List String))
    (doc : Doc) : List Effect × Except Abort Doc :=
  let pfs :=
    (match getField pkg "postFilters" with
     | some (.varr l) => l
     | _ => []) ++
    (match argPF with
     | some l => l.map JVal.vstr
     | none => [])
  if pfs.length = 0 then ([], .ok doc)
  else
    match env.textPostFilter doc pfs with
    | some d2 => ([.postFilterCall pfs], .ok d2)
    | none => ([.postFilterCall pfs], .error .threw)

/-- The theme-resolution step: copy the document's embedded theme onto the
package record only for non-package input when it is a truthy object, then
construct the theme instance from the package record's `theme` field when
that is a truthy object, and the default instance otherwise. -/
def themeStep (isPackage : Bool) (doc : Doc) (pkg : JVal) : JVal × Theme :=
  let pkg2 :=
    if ¬ isPackage ∧ truthyObj doc.dtheme then
      match doc.dtheme with
      | some v => setField pkg "theme" v
      | none => pkg
    else pkg
  let th :=
    match getField pkg2 "theme" with
    | some v => if truthy v && isObjType v then Theme.fromObj v else Theme.defaultTheme
    | none => Theme.defaultTheme
  (pkg2, th)

/-- The call `renderers[args.format](structuredDocument, theme, package_)`.  The
renderer bodies delegate to external libraries (and, for `html`, read CSS
files); a failure inside a renderer is an uncaught exception. -/
def renderStage (env : Env) (format : String) (doc : Doc) (th : Theme)
    (pkg : JVal) : List Effect × Except Abort String :=
  match env.render format doc th pkg with
  | some out => ([.renderCall format doc th pkg], .ok out)
  | none => ([.renderCall format doc th pkg], .error .threw)

/-- The output sink: `console.log(output)` (which appends a newline to the
bytes written to stdout) when no `--output` was given, otherwise
`fs.writeFileSync` with an error handler. -/
def outputStage (env : Env) (outputOpt : Option String) (out : String) :
    List Effect × Except Abort Unit :=
  match outputOpt with
  | none => ([.stdoutWrite (out ++ "\n")], .ok ())
  | some p =>
    if env.writeFile p out then ([.fileWrite p out], .ok ())
    else
      ([.errMsg ("Error writing destination file \x27" ++ p ++ "\x27:")],
       .error (.exited 1))

/-!
The whole `cli()` function is the stages in source order.  It is written as
a chain of named continuations (one per remaining pipeline suffix) purely
to keep terms small in proofs; inlining them yields the linear statement
sequence of the source.  The result is the effect trace together with
`.ok ()` for a completed run (implicit exit code 0) or the abort that ended
it.
-/

/-- Pipeline suffix after post-filtering: theme resolution, rendering,
output. -/
def afterFilter (env : Env) (args : Args) (ip : Bool) (pkg : JVal) (fmt : String)
    (doc2 : Doc) : List Effect × Except Abort Unit :=
  ebind (renderStage env fmt doc2 (themeStep ip doc2 pkg).2 (themeStep ip doc2 pkg).1) fun out =>
  outputStage env args.output out

/-- Pipeline suffix after parsing: post-filtering onwards. -/
def afterParse (env : Env) (args : Args) (ip : Bool) (pkg : JVal) (fmt : String)
    (doc : Doc) : List Effect × Except Abort Unit :=
  ebind (filterStage env pkg args.postFilter doc) fun doc2 =>
  afterFilter env args ip pkg fmt doc2

/-- Pipeline suffix after aggregation: parsing onwards. -/
def afterAggregate (env : Env) (args : Args) (ip : Bool) (pkg : JVal) (fmt : String)
    (raw : String) : List Effect × Except Abort Unit :=
  ebind (parseStage env raw) fun doc => afterParse env args ip pkg fmt doc

/-- Pipeline suffix after the sources check: aggregation onwards. -/
def afterSources (env : Env) (args : Args) (ip : Bool) (pkg : JVal) (fmt : String)
    (bd : String) (srcs : List JVal) : List Effect × Except Abort Unit :=
  ebind (aggregate env bd srcs "") fun raw => afterAggregate env args ip pkg fmt raw

/-- Pipeline suffix after the format check: the sources check onwards. -/
def afterFormat (env : Env) (args : Args) (ip : Bool) (pkg : JVal) (bd : String)
    (fmt : String) : List Effect × Except Abort Unit :=
  ebind (sourcesStage pkg) fun srcs => afterSources env args ip pkg fmt bd srcs

/-- Pipeline suffix after the standalone-flag assignment: the format check
onwards. -/
def afterStandalone (env : Env) (args : Args) (ip : Bool) (bd : String)
    (pkg : JVal) : List Effect × Except Abort Unit :=
  ebind (formatStage args.format) fun fmt => afterFormat env args ip pkg bd fmt

/-- Pipeline suffix after the extension dispatch: the standalone-flag
assignment onwards. -/
def afterLoad (env : Env) (args : Args) (lp : JVal × String × Bool) :
    List Effect × Except Abort Unit :=
  ebind (standaloneStage args.fragment lp.1) fun pkg =>
  afterStandalone env args lp.2.2 lp.2.1 pkg

/-- The whole `cli()` function. -/
def cli (env : Env) (args : Args) : List Effect × Except Abort Unit :=
  ebind (loadPackage env args.source) fun lp => afterLoad env args lp

/-! ## Spec-side definitions

Definitions following the specification's wording, for comparison with the
translated code. -/

/-- Modelled from the spec: "the extension taken verbatim (case-sensitively)
after the final dot" — the suffix of the path after its last dot (the whole
path when it has no dot). -/
def afterFinalDot (s : String) : String := (splitOnChar '.' s.data []).getLastD s

/-- Modelled from the spec: "the path actually read is computed by: joining
the entry with the base directory when the entry is not absolute, leaving
it unchanged when absolute; then appending `.bks` exactly when the
resulting path has no file extension". -/
def specResolvedPath (baseDir s : String) : String :=
  let joined := if isAbsolute s then s else pjoin baseDir s
  if extname joined = "" then joined ++ ".bks" else joined

/-- The sources-field validation test of the source
(`! Array.isArray( package_.sources ) || ! package_.sources.length`):
true when the field is missing, not a list, or an empty list. -/
def badSources (pkg : JVal) : Bool :=
  match getField pkg "sources" with
  | some (.varr (_ :: _)) => false
  | _ => true

/-- Modelled from the spec: the package-declared post-filter names, in
their declared order (empty when the `postFilters` field is missing or not
a list). -/
def pkgDeclaredFilters (pkg : JVal) : List JVal :=
  match getField pkg "postFilters" with
  | some (.varr l) => l
  | _ => []

/-- Modelled from the spec: the CLI-declared post-filter names, in their
declared order. -/
def cliDeclaredFilters : Option (List String) → List JVal
  | some l => l.map JVal.vstr
  | none => []

/-! ## Concrete environments for witnesses and counterexamples -/

/-- An environment in which every external collaborator fails; sufficient
for runs that abort before using them. -/
def emptyEnv : Env where
  cwd := "/cwd"
  readFile := fun _ => none
  kfgLoad := fun _ => none
  jsonLoad := fun _ => none
  parse := fun _ => none
  textPostFilter := fun _ _ => none
  render := fun _ _ _ _ => none
  writeFile := fun _ _ => false

/-- A standalone run that completes: one `.bks` source, parser and
renderer succeed, output to stdout. -/
def envStd : Env := { emptyEnv with
  readFile := fun p => if p = "/cwd/doc.bks" then some "body" else none
  parse := fun _ => some { dtheme := none, payload := 0 }
  render := fun _ _ _ _ => some "out" }

/-- Arguments of the standalone run: `doc.bks`, default format, stdout. -/
def argsStd : Args where
  source := "doc.bks"
  output := none
  format := "html"
  postFilter := none
  fragment := false

/-- Base directory with one empty and one non-empty source file, for the
aggregator separator analysis. -/
def envAgg : Env := { emptyEnv with
  readFile := fun p =>
    if p = "/base/a.bks" then some ""
    else if p = "/base/b.bks" then some "x"
    else none }

/-- Base directory with two non-empty source files. -/
def envAgg2 : Env := { emptyEnv with
  readFile := fun p =>
    if p = "/base/a.bks" then some "x"
    else if p = "/base/b.bks" then some "y"
    else none }

/-- The package record of the descriptor used by the package-mode runs:
two sources, one declared post-filter, a declared theme. -/
def pkgDescr : JVal :=
  JVal.vobj [("sources", JVal.varr [JVal.vstr "a", JVal.vstr "b"]),
             ("postFilters", JVal.varr [JVal.vstr "foo"]),
             ("theme", JVal.vobj [("color", JVal.vstr "red")])]

/-- A package-mode run that completes: a `.json` descriptor declaring two
sources and a post-filter, renderer succeeds, output to a file. -/
def envPkg : Env := { emptyEnv with
  readFile := fun p =>
    if p = "/cwd/a.bks" then some "A"
    else if p = "/cwd/b.bks" then some "B"
    else none
  jsonLoad := fun p => if p = "/cwd/pkg.json" then some pkgDescr else none
  parse := fun s => some { dtheme := some (JVal.vobj [("d", JVal.vstr "doc")]), payload := s.length }
  textPostFilter := fun d fs => some { d with payload := d.payload + fs.length }
  render := fun _ _ _ _ => some "R"
  writeFile := fun p _ => p = "/out.html" }

/-- Arguments of the package-mode run: `pkg.json`, one CLI post-filter,
fragment mode, file output. -/
def argsPkg : Args where
  source := "pkg.json"
  output := some "/out.html"
  format := "html"
  postFilter := some ["bar"]
  fragment := true

/-- A `.json` descriptor whose package record declares no sources. -/
def envNoSources : Env := { emptyEnv with
  jsonLoad := fun p =>
    if p = "/cwd/pkg.json" then some (JVal.vobj [("theme", JVal.vnull)]) else none }


/-- Arguments selecting the no-sources descriptor. -/
def argsNoSources : Args where
  source := "pkg.json"
  output := none
  format := "html"
  postFilter := none
  fragment := false

/-- Arguments of the standalone run with an upper-case, unregistered
format name. -/
def argsXml : Args where
  source := "doc.bks"
  output := none
  format := "XML"
  postFilter := none
  fragment := false

/-! ## Basic lemmas about JS objects and lowercasing -/

theorem lookup_setFields_self (fs : List (String × JVal)) (k : String) (v : JVal) :
    (setFields fs k v).lookup k = some v := by
  induction fs with
  | nil => simp [setFields, List.lookup]
  | cons p rest ih =>
    obtain ⟨k', v'⟩ := p
    by_cases h : k' = k
    · subst h
      simp [setFields, List.lookup]
    · have hb : (k == k') = false := beq_eq_false_iff_ne.mpr (Ne.symm h)
      simp only [setFields, if_neg h, List.lookup, hb]
      exact ih

theorem lookup_setFields_ne (fs : List (String × JVal)) (k k' : String) (v : JVal)
    (h : k' ≠ k) : (setFields fs k v).lookup k' = fs.lookup k' := by
  have hb : (k' == k) = false := beq_eq_false_iff_ne.mpr h
  induction fs with
  | nil => simp [setFields, List.lookup, hb]
  | cons p rest ih =>
    obtain ⟨k'', v''⟩ := p
    by_cases h2 : k'' = k
    · subst h2
      simp only [setFields, if_pos rfl, List.lookup, hb]
    · simp only [setFields, if_neg h2, List.lookup]
      by_cases h3 : k' = k''
      · subst h3
        simp
      · have hb3 : (k' == k'') = false := beq_eq_false_iff_ne.mpr h3
        simp only [hb3]
        exact ih

theorem getField_setField_ne (p : JVal) (k k' : String) (v : JVal) (h : k' ≠ k) :
    getField (setField p k v) k' = getField p k' := by
  cases p <;> simp only [setField, getField]
  exact lookup_setFields_ne _ _ _ _ h

theorem getField_setField_self (fs : List (String × JVal)) (k : String) (v : JVal) :
    getField (setField (.vobj fs) k v) k = some v := by
  simp only [setField, getField]
  exact lookup_setFields_self _ _ _

theorem charToLower_idem (c : Char) : Char.toLower (Char.toLower c) = Char.toLower c := by
  unfold Char.toLower
  by_cases h : c.toNat ≥ 65 ∧ c.toNat ≤ 90
  · rw [if_pos h]
    have hv : (c.toNat + 32 : Nat).isValidChar := Or.inl (by omega)
    have ht : (Char.ofNat (c.toNat + 32)).toNat = c.toNat + 32 := by
      unfold Char.ofNat
      rw [dif_pos hv]
      rfl
    rw [if_neg]
    rw [ht]
    omega
  · rw [if_neg h, if_neg h]

theorem toLowerCase_idem (s : String) : toLowerCase (toLowerCase s) = toLowerCase s := by
  unfold toLowerCase
  apply String.ext
  simp only [List.map_map]
  exact List.map_congr_left fun c _ => charToLower_idem c

theorem formatStage_toLower (f : String) : formatStage (toLowerCase f) = formatStage f := by
  unfold formatStage
  rw [toLowerCase_idem]

theorem append_ne_empty_left {s : String} (t : String) (h : s ≠ "") : s ++ t ≠ "" := by
  intro hc
  apply h
  apply String.ext
  have hd := congrArg String.data hc
  rw [String.data_append] at hd
  have : s.data = [] := (List.append_eq_nil.mp hd).1
  simpa using this

/-! ## Effect shapes of the stages -/

theorem ebind_err {α β : Type} (e : List Effect) (a : Abort)
    (f : α → List Effect × Except Abort β) : ebind (e, .error a) f = (e, .error a) := rfl

theorem ebind_ok {α β : Type} (e : List Effect) (v : α)
    (f : α → List Effect × Except Abort β) :
    ebind (e, .ok v) f = (e ++ (f v).1, (f v).2) := rfl

theorem loadPackage_effs (env : Env) (s : String) :
    (loadPackage env s).1 = [] ∨
    (loadPackage env s).1 =
      [Effect.errMsg ("Cannot load file with extension ." ++ slice1 (extname s)),
       Effect.displayHelp] := by
  simp only [loadPackage]
  by_cases h1 : slice1 (extname s) = "bks"
  · rw [if_pos h1]
    left
    rfl
  · rw [if_neg h1]
    by_cases h2 : slice1 (extname s) = "kfg"
    · rw [if_pos h2]
      cases hk : env.kfgLoad (if isAbsolute s = true then s else env.cwd ++ "/" ++ s) with
      | none => left; rfl
      | some pkg => left; rfl
    · rw [if_neg h2]
      by_cases h3 : slice1 (extname s) = "json"
      · rw [if_pos h3]
        cases hj : env.jsonLoad (if isAbsolute s = true then s else env.cwd ++ "/" ++ s) with
        | none => left; rfl
        | some pkg => left; rfl
      · rw [if_neg h3]
        right
        rfl

theorem standaloneStage_effs (fr : Bool) (p : JVal) : (standaloneStage fr p).1 = [] := by
  cases p <;> rfl

theorem formatStage_ok {f : String} {e : List Effect} {fmt : String}
    (h : formatStage f = (e, .ok fmt)) : e = [] ∧ fmt = toLowerCase f := by
  simp only [formatStage] at h
  by_cases hc : availableRenderers.contains (toLowerCase f) = true
  · rw [if_pos hc, Prod.mk.injEq] at h
    refine ⟨h.1.symm, ?_⟩
    cases h.2
    rfl
  · rw [if_neg hc, Prod.mk.injEq] at h
    cases h.2

theorem formatStage_effs (f : String) :
    (formatStage f).1 = [] ∨
    (formatStage f).1 =
      [Effect.errMsg ("Unsupported format \x27" ++ toLowerCase f ++ "\x27."), Effect.displayHelp] := by
  simp only [formatStage]
  by_cases hc : availableRenderers.contains (toLowerCase f) = true
  · rw [if_pos hc]
    left
    rfl
  · rw [if_neg hc]
    right
    rfl

theorem sourcesStage_ok {p : JVal} {e : List Effect} {srcs : List JVal}
    (h : sourcesStage p = (e, .ok srcs)) : e = [] := by
  unfold sourcesStage at h
  split at h
  · rw [Prod.mk.injEq] at h
    exact h.1.symm
  · rw [Prod.mk.injEq] at h
    cases h.2

theorem sourcesStage_effs (p : JVal) :
    (sourcesStage p).1 = [] ∨
    (sourcesStage p).1 = [Effect.errMsg "No source specified in the package."] := by
  unfold sourcesStage
  split
  · left; rfl
  · right; rfl

theorem parseStage_effs (env : Env) (raw : String) : (parseStage env raw).1 = [] := by
  unfold parseStage
  split <;> rfl

theorem aggregate_mem (env : Env) (bd : String) :
    ∀ (l : List JVal) (acc : String) (e : Effect), e ∈ (aggregate env bd l acc).1 →
      (∃ p, e = Effect.readFile p) ∨ ∃ m, e = Effect.errMsg m := by
  intro l
  induction l with
  | nil => intro acc e he; simp [aggregate] at he
  | cons x rest ih =>
    intro acc e he
    cases x with
    | vstr s =>
      simp only [aggregate] at he
      cases hr : env.readFile (resolveOne bd s) with
      | none =>
        rw [hr] at he
        simp only [List.mem_cons, List.not_mem_nil, or_false] at he
        rcases he with rfl | rfl
        · exact Or.inl ⟨_, rfl⟩
        · exact Or.inr ⟨_, rfl⟩
      | some c =>
        rw [hr] at he
        simp only [List.mem_cons] at he
        rcases he with rfl | he
        · exact Or.inl ⟨_, rfl⟩
        · exact ih _ _ he
    | vnull => simp [aggregate] at he
    | vbool b => simp [aggregate] at he
    | vnum n => simp [aggregate] at he
    | varr l2 => simp [aggregate] at he
    | vobj fs2 => simp [aggregate] at he

/-- The filter stage, re-expressed through the named filter-list definitions
(definitional equality). -/
theorem filterStage_eq (env : Env) (pkg : JVal) (pf : Option (List String)) (doc : Doc) :
    filterStage env pkg pf doc =
      (if (pkgDeclaredFilters pkg ++ cliDeclaredFilters pf).length = 0 then ([], .ok doc)
       else
         match env.textPostFilter doc (pkgDeclaredFilters pkg ++ cliDeclaredFilters pf) with
         | some d2 =>
           ([.postFilterCall (pkgDeclaredFilters pkg ++ cliDeclaredFilters pf)], .ok d2)
         | none =>
           ([.postFilterCall (pkgDeclaredFilters pkg ++ cliDeclaredFilters pf)],
            .error .threw)) := rfl

theorem filterStage_effs (env : Env) (pkg : JVal) (pf : Option (List String)) (doc : Doc) :
    (filterStage env pkg pf doc).1 = [] ∨
    (filterStage env pkg pf doc).1 =
      [Effect.postFilterCall (pkgDeclaredFilters pkg ++ cliDeclaredFilters pf)] := by
  rw [filterStage_eq]
  by_cases hl : (pkgDeclaredFilters pkg ++ cliDeclaredFilters pf).length = 0
  · rw [if_pos hl]
    left
    rfl
  · rw [if_neg hl]
    cases ht : env.textPostFilter doc (pkgDeclaredFilters pkg ++ cliDeclaredFilters pf) with
    | none => right; rfl
    | some d2 => right; rfl

theorem renderStage_effs (env : Env) (f : String) (d : Doc) (th : Theme) (p : JVal) :
    (renderStage env f d th p).1 = [Effect.renderCall f d th p] := by
  unfold renderStage
  split <;> rfl

theorem renderStage_ok {env : Env} {f : String} {d : Doc} {th : Theme} {p : JVal}
    {e : List Effect} {out : String} (h : renderStage env f d th p = (e, .ok out)) :
    env.render f d th p = some out ∧ e = [Effect.renderCall f d th p] := by
  unfold renderStage at h
  cases hr : env.render f d th p with
  | none =>
    rw [hr] at h
    rw [Prod.mk.injEq] at h
    cases h.2
  | some o =>
    rw [hr] at h
    rw [Prod.mk.injEq] at h
    refine ⟨?_, h.1.symm⟩
    cases h.2
    rfl

theorem outputStage_effs (env : Env) (o : Option String) (out : String) :
    (outputStage env o out).1 = [Effect.stdoutWrite (out ++ "
")] ∨
    (∃ p, (outputStage env o out).1 = [Effect.fileWrite p out]) ∨
    (∃ m, (outputStage env o out).1 = [Effect.errMsg m]) := by
  rcases o with _ | p
  · left
    rfl
  · by_cases hw : env.writeFile p out = true
    · right; left
      refine ⟨p, ?_⟩
      simp only [outputStage]
      rw [if_pos hw]
    · right; right
      refine ⟨"Error writing destination file \x27" ++ p ++ "\x27:", ?_⟩
      simp only [outputStage]
      rw [if_neg hw]

theorem outputStage_ok_artifacts {env : Env} {o : Option String} {out : String}
    {e : List Effect} (h : outputStage env o out = (e, .ok ())) :
    (stdoutWrites e).length + (fileWrites e).length = 1 := by
  rcases o with _ | p
  · simp only [outputStage, Prod.mk.injEq] at h
    rw [← h.1]
    rfl
  · simp only [outputStage] at h
    by_cases hw : env.writeFile p out = true
    · rw [if_pos hw, Prod.mk.injEq] at h
      rw [← h.1]
      rfl
    · rw [if_neg hw, Prod.mk.injEq] at h
      cases h.2

theorem outputStage_err_artifacts {env : Env} {o : Option String} {out : String}
    {e : List Effect} {a : Abort} (h : outputStage env o out = (e, .error a)) :
    stdoutWrites e = [] ∧ fileWrites e = [] := by
  rcases o with _ | p
  · simp only [outputStage, Prod.mk.injEq] at h
    cases h.2
  · simp only [outputStage] at h
    by_cases hw : env.writeFile p out = true
    · rw [if_pos hw, Prod.mk.injEq] at h
      cases h.2
    · rw [if_neg hw, Prod.mk.injEq] at h
      rw [← h.1]
      exact ⟨rfl, rfl⟩

/-! ## Trace extractors vanish on stages that cannot produce the effect -/

theorem stdoutWrites_load (env : Env) (s : String) :
    stdoutWrites (loadPackage env s).1 = [] := by
  rcases loadPackage_effs env s with h | h <;> rw [h] <;> rfl

theorem fileWrites_load (env : Env) (s : String) :
    fileWrites (loadPackage env s).1 = [] := by
  rcases loadPackage_effs env s with h | h <;> rw [h] <;> rfl

theorem filterCalls_load (env : Env) (s : String) :
    filterCalls (loadPackage env s).1 = [] := by
  rcases loadPackage_effs env s with h | h <;> rw [h] <;> rfl

theorem renderCallsOf_load (env : Env) (s : String) :
    renderCallsOf (loadPackage env s).1 = [] := by
  rcases loadPackage_effs env s with h | h <;> rw [h] <;> rfl

theorem readCalls_load (env : Env) (s : String) :
    readCalls (loadPackage env s).1 = [] := by
  rcases loadPackage_effs env s with h | h <;> rw [h] <;> rfl

theorem stdoutWrites_format (f : String) : stdoutWrites (formatStage f).1 = [] := by
  rcases formatStage_effs f with h | h <;> rw [h] <;> rfl

theorem fileWrites_format (f : String) : fileWrites (formatStage f).1 = [] := by
  rcases formatStage_effs f with h | h <;> rw [h] <;> rfl

theorem filterCalls_format (f : String) : filterCalls (formatStage f).1 = [] := by
  rcases formatStage_effs f with h | h <;> rw [h] <;> rfl

theorem renderCallsOf_format (f : String) : renderCallsOf (formatStage f).1 = [] := by
  rcases formatStage_effs f with h | h <;> rw [h] <;> rfl

theorem readCalls_format (f : String) : readCalls (formatStage f).1 = [] := by
  rcases formatStage_effs f with h | h <;> rw [h] <;> rfl

theorem stdoutWrites_sources (p : JVal) : stdoutWrites (sourcesStage p).1 = [] := by
  rcases sourcesStage_effs p with h | h <;> rw [h] <;> rfl

theorem fileWrites_sources (p : JVal) : fileWrites (sourcesStage p).1 = [] := by
  rcases sourcesStage_effs p with h | h <;> rw [h] <;> rfl

theorem filterCalls_sources (p : JVal) : filterCalls (sourcesStage p).1 = [] := by
  rcases sourcesStage_effs p with h | h <;> rw [h] <;> rfl

theorem renderCallsOf_sources (p : JVal) : renderCallsOf (sourcesStage p).1 = [] := by
  rcases sourcesStage_effs p with h | h <;> rw [h] <;> rfl

theorem readCalls_sources (p : JVal) : readCalls (sourcesStage p).1 = [] := by
  rcases sourcesStage_effs p with h | h <;> rw [h] <;> rfl

theorem stdoutWrites_aggregate (env : Env) (bd : String) (l : List JVal) (acc : String) :
    stdoutWrites (aggregate env bd l acc).1 = [] := by
  refine List.filterMap_eq_nil_iff.mpr fun e he => ?_
  rcases aggregate_mem env bd l acc e he with ⟨p, rfl⟩ | ⟨m, rfl⟩ <;> rfl

theorem fileWrites_aggregate (env : Env) (bd : String) (l : List JVal) (acc : String) :
    fileWrites (aggregate env bd l acc).1 = [] := by
  refine List.filterMap_eq_nil_iff.mpr fun e he => ?_
  rcases aggregate_mem env bd l acc e he with ⟨p, rfl⟩ | ⟨m, rfl⟩ <;> rfl

theorem filterCalls_aggregate (env : Env) (bd : String) (l : List JVal) (acc : String) :
    filterCalls (aggregate env bd l acc).1 = [] := by
  refine List.filterMap_eq_nil_iff.mpr fun e he => ?_
  rcases aggregate_mem env bd l acc e he with ⟨p, rfl⟩ | ⟨m, rfl⟩ <;> rfl

theorem renderCallsOf_aggregate (env : Env) (bd : String) (l : List JVal) (acc : String) :
    renderCallsOf (aggregate env bd l acc).1 = [] := by
  refine List.filterMap_eq_nil_iff.mpr fun e he => ?_
  rcases aggregate_mem env bd l acc e he with ⟨p, rfl⟩ | ⟨m, rfl⟩ <;> rfl

theorem stdoutWrites_filter (env : Env) (pkg : JVal) (pf : Option (List String)) (doc : Doc) :
    stdoutWrites (filterStage env pkg pf doc).1 = [] := by
  rcases filterStage_effs env pkg pf doc with h | h <;> rw [h] <;> rfl

theorem fileWrites_filter (env : Env) (pkg : JVal) (pf : Option (List String)) (doc : Doc) :
    fileWrites (filterStage env pkg pf doc).1 = [] := by
  rcases filterStage_effs env pkg pf doc with h | h <;> rw [h] <;> rfl

theorem renderCallsOf_filter (env : Env) (pkg : JVal) (pf : Option (List String)) (doc : Doc) :
    renderCallsOf (filterStage env pkg pf doc).1 = [] := by
  rcases filterStage_effs env pkg pf doc with h | h <;> rw [h] <;> rfl

theorem stdoutWrites_render (env : Env) (f : String) (d : Doc) (th : Theme) (p : JVal) :
    stdoutWrites (renderStage env f d th p).1 = [] := by
  rw [renderStage_effs]
  rfl

theorem fileWrites_render (env : Env) (f : String) (d : Doc) (th : Theme) (p : JVal) :
    fileWrites (renderStage env f d th p).1 = [] := by
  rw [renderStage_effs]
  rfl

theorem filterCalls_render (env : Env) (f : String) (d : Doc) (th : Theme) (p : JVal) :
    filterCalls (renderStage env f d th p).1 = [] := by
  rw [renderStage_effs]
  rfl

theorem filterCalls_output (env : Env) (o : Option String) (out : String) :
    filterCalls (outputStage env o out).1 = [] := by
  rcases outputStage_effs env o out with h | ⟨p, h⟩ | ⟨m, h⟩ <;> rw [h] <;> rfl

theorem renderCallsOf_output (env : Env) (o : Option String) (out : String) :
    renderCallsOf (outputStage env o out).1 = [] := by
  rcases outputStage_effs env o out with h | ⟨p, h⟩ | ⟨m, h⟩ <;> rw [h] <;> rfl

/-! ## Master case analysis of a run -/

/-- Every `cli` run terminates in exactly one of ten stage-indexed shapes,
recording the result of each stage it passed and the full effect trace. -/
theorem cli_cases (env : Env) (args : Args) :
    (∃ e1 a, loadPackage env args.source = (e1, .error a) ∧
       cli env args = (e1, .error a)) ∨
    (∃ e1 p0 bd ip a,
       loadPackage env args.source = (e1, .ok (p0, bd, ip)) ∧
       standaloneStage args.fragment p0 = ([], .error a) ∧
       cli env args = (e1, .error a)) ∨
    (∃ e1 p0 bd ip pkg e3 a,
       loadPackage env args.source = (e1, .ok (p0, bd, ip)) ∧
       standaloneStage args.fragment p0 = ([], .ok pkg) ∧
       formatStage args.format = (e3, .error a) ∧
       cli env args = (e1 ++ e3, .error a)) ∨
    (∃ e1 p0 bd ip pkg fmt e4 a,
       loadPackage env args.source = (e1, .ok (p0, bd, ip)) ∧
       standaloneStage args.fragment p0 = ([], .ok pkg) ∧
       formatStage args.format = ([], .ok fmt) ∧
       sourcesStage pkg = (e4, .error a) ∧
       cli env args = (e1 ++ e4, .error a)) ∨
    (∃ e1 p0 bd ip pkg fmt srcs e5 a,
       loadPackage env args.source = (e1, .ok (p0, bd, ip)) ∧
       standaloneStage args.fragment p0 = ([], .ok pkg) ∧
       formatStage args.format = ([], .ok fmt) ∧
       sourcesStage pkg = ([], .ok srcs) ∧
       aggregate env bd srcs "" = (e5, .error a) ∧
       cli env args = (e1 ++ e5, .error a)) ∨
    (∃ e1 p0 bd ip pkg fmt srcs e5 raw a,
       loadPackage env args.source = (e1, .ok (p0, bd, ip)) ∧
       standaloneStage args.fragment p0 = ([], .ok pkg) ∧
       formatStage args.format = ([], .ok fmt) ∧
       sourcesStage pkg = ([], .ok srcs) ∧
       aggregate env bd srcs "" = (e5, .ok raw) ∧
       parseStage env raw = ([], .error a) ∧
       cli env args = (e1 ++ e5, .error a)) ∨
    (∃ e1 p0 bd ip pkg fmt srcs e5 raw doc e7 a,
       loadPackage env args.source = (e1, .ok (p0, bd, ip)) ∧
       standaloneStage args.fragment p0 = ([], .ok pkg) ∧
       formatStage args.format = ([], .ok fmt) ∧
       sourcesStage pkg = ([], .ok srcs) ∧
       aggregate env bd srcs "" = (e5, .ok raw) ∧
       parseStage env raw = ([], .ok doc) ∧
       filterStage env pkg args.postFilter doc = (e7, .error a) ∧
       cli env args = (e1 ++ e5 ++ e7, .error a)) ∨
    (∃ e1 p0 bd ip pkg fmt srcs e5 raw doc e7 doc2 e8 a,
       loadPackage env args.source = (e1, .ok (p0, bd, ip)) ∧
       standaloneStage args.fragment p0 = ([], .ok pkg) ∧
       formatStage args.format = ([], .ok fmt) ∧
       sourcesStage pkg = ([], .ok srcs) ∧
       aggregate env bd srcs "" = (e5, .ok raw) ∧
       parseStage env raw = ([], .ok doc) ∧
       filterStage env pkg args.postFilter doc = (e7, .ok doc2) ∧
       renderStage env fmt doc2 (themeStep ip doc2 pkg).2 (themeStep ip doc2 pkg).1 =
         (e8, .error a) ∧
       cli env args = (e1 ++ e5 ++ e7 ++ e8, .error a)) ∨
    (∃ e1 p0 bd ip pkg fmt srcs e5 raw doc e7 doc2 e8 out e9 a,
       loadPackage env args.source = (e1, .ok (p0, bd, ip)) ∧
       standaloneStage args.fragment p0 = ([], .ok pkg) ∧
       formatStage args.format = ([], .ok fmt) ∧
       sourcesStage pkg = ([], .ok srcs) ∧
       aggregate env bd srcs "" = (e5, .ok raw) ∧
       parseStage env raw = ([], .ok doc) ∧
       filterStage env pkg args.postFilter doc = (e7, .ok doc2) ∧
       renderStage env fmt doc2 (themeStep ip doc2 pkg).2 (themeStep ip doc2 pkg).1 =
         (e8, .ok out) ∧
       outputStage env args.output out = (e9, .error a) ∧
       cli env args = (e1 ++ e5 ++ e7 ++ e8 ++ e9, .error a)) ∨
    (∃ e1 p0 bd ip pkg fmt srcs e5 raw doc e7 doc2 e8 out e9,
       loadPackage env args.source = (e1, .ok (p0, bd, ip)) ∧
       standaloneStage args.fragment p0 = ([], .ok pkg) ∧
       formatStage args.format = ([], .ok fmt) ∧
       sourcesStage pkg = ([], .ok srcs) ∧
       aggregate env bd srcs "" = (e5, .ok raw) ∧
       parseStage env raw = ([], .ok doc) ∧
       filterStage env pkg args.postFilter doc = (e7, .ok doc2) ∧
       renderStage env fmt doc2 (themeStep ip doc2 pkg).2 (themeStep ip doc2 pkg).1 =
         (e8, .ok out) ∧
       outputStage env args.output out = (e9, .ok ()) ∧
       cli env args = (e1 ++ e5 ++ e7 ++ e8 ++ e9, .ok ())) := by
  rcases hL : loadPackage env args.source with ⟨e1, r1⟩
  rcases r1 with a | lp
  · refine Or.inl ⟨e1, a, rfl, ?_⟩
    unfold cli
    rw [hL, ebind_err]
  obtain ⟨p0, bd, ip⟩ := lp
  have hc : cli env args =
      (e1 ++ (afterLoad env args (p0, bd, ip)).1, (afterLoad env args (p0, bd, ip)).2) := by
    unfold cli
    rw [hL, ebind_ok]
  unfold afterLoad at hc
  dsimp only at hc
  rcases hS : standaloneStage args.fragment p0 with ⟨e2, r2⟩
  have he2 : e2 = [] := by
    have h := standaloneStage_effs args.fragment p0
    rw [hS] at h
    exact h
  subst he2
  rcases r2 with a | pkg
  · rw [hS, ebind_err] at hc
    dsimp only at hc
    refine Or.inr (Or.inl ⟨e1, p0, bd, ip, a, rfl, hS, ?_⟩)
    rw [hc]
    simp
  rw [hS, ebind_ok] at hc
  dsimp only at hc
  unfold afterStandalone at hc
  rcases hF : formatStage args.format with ⟨e3, r3⟩
  rcases r3 with a | fmt
  · rw [hF, ebind_err] at hc
    dsimp only at hc
    refine Or.inr (Or.inr (Or.inl ⟨e1, p0, bd, ip, pkg, e3, a, rfl, hS, rfl, ?_⟩))
    rw [hc]
    simp
  obtain ⟨he3, hfmt⟩ := formatStage_ok hF
  subst he3
  rw [hF, ebind_ok] at hc
  dsimp only at hc
  unfold afterFormat at hc
  rcases hSo : sourcesStage pkg with ⟨e4, r4⟩
  rcases r4 with a | srcs
  · rw [hSo, ebind_err] at hc
    dsimp only at hc
    refine Or.inr (Or.inr (Or.inr (Or.inl
      ⟨e1, p0, bd, ip, pkg, fmt, e4, a, rfl, hS, rfl, hSo, ?_⟩)))
    rw [hc]
    simp
  have he4 : e4 = [] := sourcesStage_ok hSo
  subst he4
  rw [hSo, ebind_ok] at hc
  dsimp only at hc
  unfold afterSources at hc
  rcases hAg : aggregate env bd srcs "" with ⟨e5, r5⟩
  rcases r5 with a | raw
  · rw [hAg, ebind_err] at hc
    dsimp only at hc
    refine Or.inr (Or.inr (Or.inr (Or.inr (Or.inl
      ⟨e1, p0, bd, ip, pkg, fmt, srcs, e5, a, rfl, hS, rfl, hSo, hAg, ?_⟩))))
    rw [hc]
    simp
  rw [hAg, ebind_ok] at hc
  dsimp only at hc
  unfold afterAggregate at hc
  rcases hP : parseStage env raw with ⟨e6, r6⟩
  have he6 : e6 = [] := by
    have h := parseStage_effs env raw
    rw [hP] at h
    exact h
  subst he6
  rcases r6 with a | doc
  · rw [hP, ebind_err] at hc
    dsimp only at hc
    refine Or.inr (Or.inr (Or.inr (Or.inr (Or.inr (Or.inl
      ⟨e1, p0, bd, ip, pkg, fmt, srcs, e5, raw, a, rfl, hS, rfl, hSo, hAg, hP, ?_⟩)))))
    rw [hc]
    simp
  rw [hP, ebind_ok] at hc
  dsimp only at hc
  unfold afterParse at hc
  rcases hFi : filterStage env pkg args.postFilter doc with ⟨e7, r7⟩
  rcases r7 with a | doc2
  · rw [hFi, ebind_err] at hc
    dsimp only at hc
    refine Or.inr (Or.inr (Or.inr (Or.inr (Or.inr (Or.inr (Or.inl
      ⟨e1, p0, bd, ip, pkg, fmt, srcs, e5, raw, doc, e7, a,
       rfl, hS, rfl, hSo, hAg, hP, hFi, ?_⟩))))))
    rw [hc]
    simp [List.append_assoc]
  rw [hFi, ebind_ok] at hc
  dsimp only at hc
  unfold afterFilter at hc
  rcases hR : renderStage env fmt doc2 (themeStep ip doc2 pkg).2 (themeStep ip doc2 pkg).1
    with ⟨e8, r8⟩
  rcases r8 with a | out
  · rw [hR, ebind_err] at hc
    dsimp only at hc
    refine Or.inr (Or.inr (Or.inr (Or.inr (Or.inr (Or.inr (Or.inr (Or.inl
      ⟨e1, p0, bd, ip, pkg, fmt, srcs, e5, raw, doc, e7, doc2, e8, a,
       rfl, hS, rfl, hSo, hAg, hP, hFi, hR, ?_⟩)))))))
    rw [hc]
    simp [List.append_assoc]
  rw [hR, ebind_ok] at hc
  dsimp only at hc
  rcases hO : outputStage env args.output out with ⟨e9, r9⟩
  rcases r9 with a | u
  · rw [hO] at hc
    dsimp only at hc
    refine Or.inr (Or.inr (Or.inr (Or.inr (Or.inr (Or.inr (Or.inr (Or.inr (Or.inl
      ⟨e1, p0, bd, ip, pkg, fmt, srcs, e5, raw, doc, e7, doc2, e8, out, e9, a,
       rfl, hS, rfl, hSo, hAg, hP, hFi, hR, hO, ?_⟩))))))))
    rw [hc]
    simp [List.append_assoc]
  obtain ⟨⟩ := u
  rw [hO] at hc
  dsimp only at hc
  refine Or.inr (Or.inr (Or.inr (Or.inr (Or.inr (Or.inr (Or.inr (Or.inr (Or.inr
    ⟨e1, p0, bd, ip, pkg, fmt, srcs, e5, raw, doc, e7, doc2, e8, out, e9,
     rfl, hS, rfl, hSo, hAg, hP, hFi, hR, hO, ?_⟩))))))))
  rw [hc]
  simp [List.append_assoc]

/-! ## The aggregation fold -/

/-- Single-step trace lemmas for `readCalls`. -/
theorem readCalls_cons_readFile (p : String) (l : List Effect) :
    readCalls (Effect.readFile p :: l) = p :: readCalls l := rfl

/-- When every read succeeds, the aggregation result is the source fold of
the contents, with the separator inserted before a content exactly when
the accumulator is non-empty. -/
theorem aggregate_reads_ok (env : Env) (bd : String) :
    ∀ (srcs cs : List String) (acc : String),
      srcs.map (fun s => env.readFile (resolveOne bd s)) = cs.map some →
      (aggregate env bd (srcs.map JVal.vstr) acc).2 =
        .ok (cs.foldl (fun a c => (if a ≠ "" then a ++ "\n" else a) ++ c) acc) := by
  intro srcs
  induction srcs with
  | nil =>
    intro cs acc h
    cases cs with
    | nil => rfl
    | cons c cs2 => simp at h
  | cons s rest ih =>
    intro cs acc h
    cases cs with
    | nil => simp at h
    | cons c cs2 =>
      simp only [List.map_cons, List.cons.injEq] at h
      obtain ⟨h1, h2⟩ := h
      simp only [List.map_cons, aggregate, h1, List.foldl_cons]
      exact ih cs2 _ h2

/-- With a non-empty accumulator the separator fold coincides with the
inner loop of `String.intercalate`. -/
theorem foldl_sep_go (cs : List String) :
    ∀ acc : String, acc ≠ "" →
      cs.foldl (fun a c => (if a ≠ "" then a ++ "\n" else a) ++ c) acc =
        String.intercalate.go acc "\n" cs := by
  induction cs with
  | nil =>
    intro acc hacc
    rfl
  | cons c cs2 ih =>
    intro acc hacc
    simp only [List.foldl_cons, String.intercalate.go]
    rw [if_pos hacc]
    exact ih (acc ++ "\n" ++ c) (append_ne_empty_left c (append_ne_empty_left "\n" hacc))

/-- When every content is non-empty, the separator fold from the empty
accumulator is exactly the newline-intercalation of the contents. -/
theorem foldl_sep_intercalate (cs : List String) (h : ∀ c ∈ cs, c ≠ "") :
    cs.foldl (fun a c => (if a ≠ "" then a ++ "\n" else a) ++ c) "" =
      String.intercalate "\n" cs := by
  cases cs with
  | nil => rfl
  | cons c cs2 =>
    have hc : c ≠ "" := h c (by simp)
    simp only [List.foldl_cons]
    rw [if_neg (by simp), String.empty_append]
    rw [foldl_sep_go cs2 c hc]
    rfl

/-- Every attempted read of the aggregation loop uses the resolved path of
its entry, in list order; when the loop completes, every entry is read. -/
theorem aggregate_readCalls (env : Env) (bd : String) :
    ∀ (srcs : List String) (acc : String),
      (∃ k, readCalls (aggregate env bd (srcs.map JVal.vstr) acc).1 =
        (srcs.map (resolveOne bd)).take k) ∧
      (∀ r, (aggregate env bd (srcs.map JVal.vstr) acc).2 = .ok r →
        readCalls (aggregate env bd (srcs.map JVal.vstr) acc).1 =
          srcs.map (resolveOne bd)) := by
  intro srcs
  induction srcs with
  | nil =>
    intro acc
    exact ⟨⟨0, rfl⟩, fun r _ => rfl⟩
  | cons s rest ih =>
    intro acc
    constructor
    · cases hr : env.readFile (resolveOne bd s) with
      | none =>
        refine ⟨1, ?_⟩
        simp only [List.map_cons, aggregate, hr]
        rfl
      | some c =>
        obtain ⟨k, hk⟩ := (ih ((if acc ≠ "" then acc ++ "\n" else acc) ++ c)).1
        refine ⟨k + 1, ?_⟩
        simp only [List.map_cons, aggregate, hr]
        rw [readCalls_cons_readFile, List.take_succ_cons, hk]
    · intro r hok
      cases hr : env.readFile (resolveOne bd s) with
      | none =>
        simp only [List.map_cons, aggregate, hr] at hok
        cases hok
      | some c =>
        simp only [List.map_cons, aggregate, hr] at hok ⊢
        rw [readCalls_cons_readFile,
          (ih ((if acc ≠ "" then acc ++ "\n" else acc) ++ c)).2 r hok]

/-! ## Claim C1 -/

/-- Claim C1, counterexample to the statement as written: for a sources
list with two entries whose contents are `""` and `"x"`, the aggregator
produces `"x"` and not the one-separator concatenation
`String.intercalate "\n" ["", "x"] = "\nx"`; the separator is keyed on the
accumulator being non-empty (`if (rawContent)`), not on the entry index,
so an empty content suppresses the next separator. -/
theorem C1_counterexample :
    (aggregate envAgg "/base/" [JVal.vstr "a", JVal.vstr "b"] "").2 = Except.ok "x" ∧
    String.intercalate "\n" ["", "x"] ≠ "x" :=
  ⟨rfl, by decide⟩

/-- Claim C1 as amended: when all N contents are non-empty (and every read
succeeds), the aggregator produces the concatenation of the N contents in
list order with exactly N−1 newline separators, i.e. their newline
intercalation, for any mix of absolute and relative entries. -/
theorem C1_thm (env : Env) (bd : String) (srcs cs : List String)
    (hread : srcs.map (fun s => env.readFile (resolveOne bd s)) = cs.map some)
    (hne : ∀ c ∈ cs, c ≠ "") :
    (aggregate env bd (srcs.map JVal.vstr) "").2 =
      Except.ok (String.intercalate "\n" cs) := by
  rw [aggregate_reads_ok env bd srcs cs "" hread, foldl_sep_intercalate cs hne]

/-- Witness for the amended C1 at a concrete package of two non-empty
sources. -/
theorem C1_witness :
    (aggregate envAgg2 "/base/" (["a", "b"].map JVal.vstr) "").2 =
      Except.ok (String.intercalate "\n" ["x", "y"]) :=
  C1_thm envAgg2 "/base/" ["a", "b"] ["x", "y"] rfl (by decide)

/-! ## Claim C8 -/

/-- Claim C8: the path actually read for every entry of the sources list
is the one described by the spec — the entry joined with the base
directory when not absolute, then `.bks` appended exactly when the result
has no extension — in list order (the attempted reads are a prefix of the
per-entry resolved paths, and the full list when aggregation succeeds). -/
theorem C8_thm (env : Env) (bd : String) (srcs : List String) (acc : String) :
    (∃ k, readCalls (aggregate env bd (srcs.map JVal.vstr) acc).1 =
      (srcs.map (specResolvedPath bd)).take k) ∧
    (∀ r, (aggregate env bd (srcs.map JVal.vstr) acc).2 = .ok r →
      readCalls (aggregate env bd (srcs.map JVal.vstr) acc).1 =
        srcs.map (specResolvedPath bd)) :=
  aggregate_readCalls env bd srcs acc

/-- Witness for C8: a completed aggregation reads exactly the resolved
path of each entry. -/
theorem C8_witness :
    readCalls (aggregate envAgg2 "/base/" (["a", "b"].map JVal.vstr) "").1 =
      ["a", "b"].map (specResolvedPath "/base/") :=
  (C8_thm envAgg2 "/base/" ["a", "b"] "").2 ("x" ++ "\n" ++ "y") rfl

/-! ## Claim C3 -/

/-- Claim C3, counterexample to the statement as written: for the source
path `".bks"` the text after the final dot is `"bks"`, yet the loader
rejects the file with the unsupported-extension error (and exit 1) instead
of entering standalone mode, because Node's `path.extname` treats a dot
that is the first character of the basename as not starting an
extension. -/
theorem C3_counterexample :
    afterFinalDot ".bks" = "bks" ∧
    loadPackage emptyEnv ".bks" =
      ([Effect.errMsg "Cannot load file with extension .", Effect.displayHelp],
       .error (.exited 1)) :=
  ⟨by decide, rfl⟩

/-- Claim C3 as amended: the loader dispatches on the extension as computed
by Node's `path.extname` (case-sensitively; in particular empty when the
basename's only dot is its leading character) with the leading dot
stripped: `bks` yields standalone mode with base directory the current
working directory and the synthesized package `{ sources: [sourcePath] }`;
any extension besides `bks`, `kfg` and `json` yields the fatal message
`Cannot load file with extension .<ext>`, the help text, and exit code
1. -/
theorem C3_thm (env : Env) (s : String) :
    (slice1 (extname s) = "bks" →
      loadPackage env s =
        ([], .ok (.vobj [("sources", .varr [.vstr s])], env.cwd ++ "/", false))) ∧
    (slice1 (extname s) ∉ (["bks", "kfg", "json"] : List String) →
      loadPackage env s =
        ([.errMsg ("Cannot load file with extension ." ++ slice1 (extname s)),
          .displayHelp],
         .error (.exited 1))) := by
  constructor
  · intro h
    simp only [loadPackage]
    rw [if_pos h]
  · intro h
    rw [List.mem_cons, List.mem_cons, List.mem_singleton] at h
    push_neg at h
    obtain ⟨h1, h2, h3⟩ := h
    simp only [loadPackage]
    rw [if_neg h1, if_neg h2, if_neg h3]

/-- Witness for the amended C3 at both dispatch outcomes. -/
theorem C3_witness :
    loadPackage emptyEnv "doc.bks" =
      ([], .ok (.vobj [("sources", .varr [.vstr "doc.bks"])], emptyEnv.cwd ++ "/", false)) ∧
    loadPackage emptyEnv "a.txt" =
      ([.errMsg ("Cannot load file with extension ." ++ slice1 (extname "a.txt")),
        .displayHelp],
       .error (.exited 1)) :=
  ⟨(C3_thm emptyEnv "doc.bks").1 (by decide), (C3_thm emptyEnv "a.txt").2 (by decide)⟩

/-! ## Claim C4 -/

/-- The sources-field validation rejects exactly the bad shapes. -/
theorem sourcesStage_bad {pkg : JVal} (h : badSources pkg = true) :
    sourcesStage pkg =
      ([Effect.errMsg "No source specified in the package."], .error (.exited 1)) := by
  unfold sourcesStage
  split
  next x xs heq =>
    unfold badSources at h
    rw [heq] at h
    simp at h
  next => rfl

/-- Setting the `standalone` field does not change the sources check. -/
theorem badSources_standalone (fs : List (String × JVal)) (fr : Bool) :
    badSources (.vobj (setFields fs "standalone" (.vbool (!fr)))) =
      badSources (.vobj fs) := by
  unfold badSources
  rw [show getField (JVal.vobj (setFields fs "standalone" (.vbool (!fr)))) "sources" =
        getField (.vobj fs) "sources" from
      lookup_setFields_ne fs "standalone" "sources" _ (by decide)]

/-- Claim C4: for every loaded package record (an object) whose `sources`
field is missing, not a list, or an empty list, the run attempts no source
read, and — when the requested format is registered, so that the earlier
format check passes — prints exactly `No source specified in the package.`
and exits 1. -/
theorem C4_thm (env : Env) (args : Args) (fs : List (String × JVal)) (bd : String) (ip : Bool)
    (hL : loadPackage env args.source = ([], .ok (.vobj fs, bd, ip)))
    (hBad : badSources (.vobj fs) = true) :
    readCalls (cli env args).1 = [] ∧
    (availableRenderers.contains (toLowerCase args.format) = true →
      cli env args =
        ([Effect.errMsg "No source specified in the package."], .error (.exited 1))) := by
  have hS : standaloneStage args.fragment (.vobj fs) =
      ([], .ok (.vobj (setFields fs "standalone" (.vbool (!args.fragment))))) := rfl
  have hc : cli env args =
      (([] : List Effect) ++ (afterLoad env args (.vobj fs, bd, ip)).1,
       (afterLoad env args (.vobj fs, bd, ip)).2) := by
    unfold cli
    rw [hL, ebind_ok]
  unfold afterLoad at hc
  dsimp only at hc
  rw [hS, ebind_ok] at hc
  dsimp only at hc
  unfold afterStandalone at hc
  have hBad2 : badSources (.vobj (setFields fs "standalone" (.vbool (!args.fragment)))) = true := by
    rw [badSources_standalone]
    exact hBad
  have hSo := sourcesStage_bad hBad2
  by_cases hfmt : availableRenderers.contains (toLowerCase args.format) = true
  · have hF : formatStage args.format = ([], .ok (toLowerCase args.format)) := by
      simp only [formatStage]
      rw [if_pos hfmt]
    rw [hF, ebind_ok] at hc
    dsimp only at hc
    unfold afterFormat at hc
    rw [hSo, ebind_err] at hc
    dsimp only at hc
    constructor
    · rw [hc]
      rfl
    · intro _
      rw [hc]
      rfl
  · have hF : formatStage args.format =
        ([Effect.errMsg ("Unsupported format \x27" ++ toLowerCase args.format ++ "\x27."),
          Effect.displayHelp],
         .error (.exited 1)) := by
      simp only [formatStage]
      rw [if_neg hfmt]
    rw [hF, ebind_err] at hc
    dsimp only at hc
    constructor
    · rw [hc]
      rfl
    · intro h2
      exact absurd h2 hfmt

/-- Witness for C4: a `.json` descriptor without a `sources` field. -/
theorem C4_witness :
    cli envNoSources argsNoSources =
      ([Effect.errMsg "No source specified in the package."], .error (.exited 1)) :=
  (C4_thm envNoSources argsNoSources [("theme", JVal.vnull)] "/cwd/" true rfl rfl).2 rfl

/-! ## Trace extractors distribute over concatenation -/

theorem stdoutWrites_append (a b : List Effect) :
    stdoutWrites (a ++ b) = stdoutWrites a ++ stdoutWrites b :=
  List.filterMap_append a b _

theorem fileWrites_append (a b : List Effect) :
    fileWrites (a ++ b) = fileWrites a ++ fileWrites b :=
  List.filterMap_append a b _

theorem filterCalls_append (a b : List Effect) :
    filterCalls (a ++ b) = filterCalls a ++ filterCalls b :=
  List.filterMap_append a b _

theorem renderCallsOf_append (a b : List Effect) :
    renderCallsOf (a ++ b) = renderCallsOf a ++ renderCallsOf b :=
  List.filterMap_append a b _

theorem stdoutWrites_nil : stdoutWrites [] = [] := rfl

theorem fileWrites_nil : fileWrites [] = [] := rfl

theorem filterCalls_nil : filterCalls [] = [] := rfl

theorem renderCallsOf_nil : renderCallsOf [] = [] := rfl

/-- A trace without render calls contains no `renderCall` effect. -/
theorem not_renderCall_mem {l : List Effect} (hn : renderCallsOf l = [])
    (f : String) (d : Doc) (th : Theme) (p : JVal) : Effect.renderCall f d th p ∉ l := by
  intro hm
  have h := List.filterMap_eq_nil_iff.mp hn _ hm
  simp at h

/-! ## Claim C5 -/

/-- The theme step only ever touches the `theme` field of the record. -/
theorem getField_themeStep_ne (ip : Bool) (doc : Doc) (pkg : JVal) (k : String)
    (h : k ≠ "theme") : getField (themeStep ip doc pkg).1 k = getField pkg k := by
  unfold themeStep
  dsimp only
  split
  · split
    · exact getField_setField_ne _ _ _ _ h
    · rfl
  · rfl

/-- Claim C5: theme resolution.  (1) For package input the record is left
unchanged: a descriptor-declared `theme` is never overridden by the
document's embedded theme.  (2) For standalone (non-package) input whose
parsed document embeds a theme that is a truthy object, that theme is
copied onto the record's `theme` field.  (3) When the copy condition fails
the record is unchanged.  (4) The theme instance is built from the
resulting record's `theme` field when that field holds a truthy object,
and is the default instance otherwise. -/
theorem C5_thm (ip : Bool) (doc : Doc) (fs : List (String × JVal)) :
    ((themeStep true doc (.vobj fs)).1 = .vobj fs) ∧
    (∀ v, doc.dtheme = some v → truthy v = true → isObjType v = true →
      getField (themeStep false doc (.vobj fs)).1 "theme" = some v) ∧
    (¬ (ip = false ∧ truthyObj doc.dtheme = true) →
      (themeStep ip doc (.vobj fs)).1 = .vobj fs) ∧
    ((themeStep ip doc (.vobj fs)).2 =
      match getField (themeStep ip doc (.vobj fs)).1 "theme" with
      | some v => if truthy v && isObjType v then Theme.fromObj v else Theme.defaultTheme
      | none => Theme.defaultTheme) := by
  refine ⟨?_, ?_, ?_, rfl⟩
  · unfold themeStep
    dsimp only
    rw [if_neg]
    intro hcon
    exact hcon.1 rfl
  · intro v hv h1 h2
    have hto : truthyObj doc.dtheme = true := by
      rw [hv]
      show (truthy v && isObjType v) = true
      rw [h1, h2]
      rfl
    unfold themeStep
    dsimp only
    rw [if_pos ⟨by simp, hto⟩, hv]
    exact getField_setField_self fs "theme" v
  · intro hcon
    unfold themeStep
    dsimp only
    rw [if_neg]
    intro hc2
    apply hcon
    constructor
    · cases ip with
      | false => rfl
      | true => exact absurd rfl hc2.1
    · exact hc2.2
  
/-- Witness for C5: a standalone document's embedded theme object lands in
the package record. -/
theorem C5_witness :
    getField (themeStep false { dtheme := some (JVal.vobj [("c", JVal.vstr "red")]), payload := 0 }
      (JVal.vobj [])).1 "theme" = some (JVal.vobj [("c", JVal.vstr "red")]) :=
  (C5_thm false { dtheme := some (JVal.vobj [("c", JVal.vstr "red")]), payload := 0 } []).2.1
    (JVal.vobj [("c", JVal.vstr "red")]) rfl rfl rfl

/-! ## Claim C6 -/

theorem fst_of_eq {α β : Type} {p : α × β} {x : α} {y : β} (h : p = (x, y)) : x = p.1 := by
  rw [h]

/-- Setting the `standalone` field does not change the declared
post-filters. -/
theorem pkgDeclaredFilters_standalone (fr : Bool) (p0 pkg : JVal)
    (hS : standaloneStage fr p0 = ([], .ok pkg)) :
    pkgDeclaredFilters pkg = pkgDeclaredFilters p0 := by
  cases p0 with
  | vobj fs =>
    simp only [standaloneStage, Prod.mk.injEq] at hS
    injection hS.2 with h2
    subst h2
    unfold pkgDeclaredFilters
    rw [show getField (JVal.vobj (setFields fs "standalone" (JVal.vbool (!fr)))) "postFilters" =
          getField (JVal.vobj fs) "postFilters" from
        lookup_setFields_ne fs "standalone" "postFilters" _ (by decide)]
  | varr l =>
    simp only [standaloneStage, Prod.mk.injEq] at hS
    injection hS.2 with h2
    subst h2
    rfl
  | vnull => simp [standaloneStage] at hS
  | vbool b => simp [standaloneStage] at hS
  | vnum n => simp [standaloneStage] at hS
  | vstr s => simp [standaloneStage] at hS

/-- The filter invocations recorded by the filter stage: none when the
combined list is empty, exactly one with the combined list otherwise. -/
theorem filterStage_spec (env : Env) (pkg : JVal) (pf : Option (List String)) (doc : Doc) :
    filterCalls (filterStage env pkg pf doc).1 =
      if (pkgDeclaredFilters pkg ++ cliDeclaredFilters pf).length = 0 then []
      else [pkgDeclaredFilters pkg ++ cliDeclaredFilters pf] := by
  rw [filterStage_eq]
  by_cases hl : (pkgDeclaredFilters pkg ++ cliDeclaredFilters pf).length = 0
  · rw [if_pos hl, if_pos hl]
    rfl
  · rw [if_neg hl, if_neg hl]
    cases env.textPostFilter doc (pkgDeclaredFilters pkg ++ cliDeclaredFilters pf) <;> rfl

/-- Claim C6: the filtering operation only ever receives the
package-declared filters followed by the CLI-declared filters, without
de-duplication; it is invoked at most once, and on a completed run it is
invoked exactly once when that combined list is non-empty and not at all
when it is empty. -/
theorem C6_thm (env : Env) (args : Args) (p0 : JVal) (bd : String) (ip : Bool)
    (hL : loadPackage env args.source = ([], .ok (p0, bd, ip))) :
    (∀ l ∈ filterCalls (cli env args).1,
      l = pkgDeclaredFilters p0 ++ cliDeclaredFilters args.postFilter) ∧
    (filterCalls (cli env args).1).length ≤ 1 ∧
    ((cli env args).2 = .ok () →
      filterCalls (cli env args).1 =
        if (pkgDeclaredFilters p0 ++ cliDeclaredFilters args.postFilter).length = 0 then []
        else [pkgDeclaredFilters p0 ++ cliDeclaredFilters args.postFilter]) := by
  rcases cli_cases env args with
    ⟨e1, a, hL2, hcli⟩ |
    ⟨e1, p0', bd', ip', a, hL2, hS, hcli⟩ |
    ⟨e1, p0', bd', ip', pkg, e3, a, hL2, hS, hF, hcli⟩ |
    ⟨e1, p0', bd', ip', pkg, fmt, e4, a, hL2, hS, hF, hSo, hcli⟩ |
    ⟨e1, p0', bd', ip', pkg, fmt, srcs, e5, a, hL2, hS, hF, hSo, hAg, hcli⟩ |
    ⟨e1, p0', bd', ip', pkg, fmt, srcs, e5, raw, a, hL2, hS, hF, hSo, hAg, hP, hcli⟩ |
    ⟨e1, p0', bd', ip', pkg, fmt, srcs, e5, raw, doc, e7, a,
      hL2, hS, hF, hSo, hAg, hP, hFi, hcli⟩ |
    ⟨e1, p0', bd', ip', pkg, fmt, srcs, e5, raw, doc, e7, doc2, e8, a,
      hL2, hS, hF, hSo, hAg, hP, hFi, hR, hcli⟩ |
    ⟨e1, p0', bd', ip', pkg, fmt, srcs, e5, raw, doc, e7, doc2, e8, out, e9, a,
      hL2, hS, hF, hSo, hAg, hP, hFi, hR, hO, hcli⟩ |
    ⟨e1, p0', bd', ip', pkg, fmt, srcs, e5, raw, doc, e7, doc2, e8, out, e9,
      hL2, hS, hF, hSo, hAg, hP, hFi, hR, hO, hcli⟩
  · have he1 := fst_of_eq hL2
    have hfc : filterCalls (cli env args).1 = [] := by
      rw [hcli]
      dsimp only
      rw [he1, filterCalls_load]
    refine ⟨?_, ?_, ?_⟩
    · intro l hl
      rw [hfc] at hl
      exact absurd hl (List.not_mem_nil l)
    · rw [hfc]
      simp
    · intro hok
      rw [hcli] at hok
      simp at hok
  · have he1 := fst_of_eq hL2
    have hfc : filterCalls (cli env args).1 = [] := by
      rw [hcli]
      dsimp only
      rw [he1, filterCalls_load]
    refine ⟨?_, ?_, ?_⟩
    · intro l hl
      rw [hfc] at hl
      exact absurd hl (List.not_mem_nil l)
    · rw [hfc]
      simp
    · intro hok
      rw [hcli] at hok
      simp at hok
  · have he1 := fst_of_eq hL2
    have he3 := fst_of_eq hF
    have hfc : filterCalls (cli env args).1 = [] := by
      rw [hcli]
      dsimp only
      rw [filterCalls_append, he1, filterCalls_load, he3, filterCalls_format]
      rfl
    refine ⟨?_, ?_, ?_⟩
    · intro l hl
      rw [hfc] at hl
      exact absurd hl (List.not_mem_nil l)
    · rw [hfc]
      simp
    · intro hok
      rw [hcli] at hok
      simp at hok
  · have he1 := fst_of_eq hL2
    have he4 := fst_of_eq hSo
    have hfc : filterCalls (cli env args).1 = [] := by
      rw [hcli]
      dsimp only
      rw [filterCalls_append, he1, filterCalls_load, he4, filterCalls_sources]
      rfl
    refine ⟨?_, ?_, ?_⟩
    · intro l hl
      rw [hfc] at hl
      exact absurd hl (List.not_mem_nil l)
    · rw [hfc]
      simp
    · intro hok
      rw [hcli] at hok
      simp at hok
  · have he1 := fst_of_eq hL2
    have he5 := fst_of_eq hAg
    have hfc : filterCalls (cli env args).1 = [] := by
      rw [hcli]
      dsimp only
      rw [filterCalls_append, he1, filterCalls_load, he5, filterCalls_aggregate]
      rfl
    refine ⟨?_, ?_, ?_⟩
    · intro l hl
      rw [hfc] at hl
      exact absurd hl (List.not_mem_nil l)
    · rw [hfc]
      simp
    · intro hok
      rw [hcli] at hok
      simp at hok
  · have he1 := fst_of_eq hL2
    have he5 := fst_of_eq hAg
    have hfc : filterCalls (cli env args).1 = [] := by
      rw [hcli]
      dsimp only
      rw [filterCalls_append, he1, filterCalls_load, he5, filterCalls_aggregate]
      rfl
    refine ⟨?_, ?_, ?_⟩
    · intro l hl
      rw [hfc] at hl
      exact absurd hl (List.not_mem_nil l)
    · rw [hfc]
      simp
    · intro hok
      rw [hcli] at hok
      simp at hok
  · rw [hL] at hL2
    simp only [Prod.mk.injEq, Except.ok.injEq] at hL2
    obtain ⟨he1, hp0, hbd, hip⟩ := hL2
    subst hp0
    have he5 := fst_of_eq hAg
    have he7 := fst_of_eq hFi
    have hcomb := pkgDeclaredFilters_standalone args.fragment p0 pkg hS
    have hfc : filterCalls (cli env args).1 =
        if (pkgDeclaredFilters p0 ++ cliDeclaredFilters args.postFilter).length = 0 then []
        else [pkgDeclaredFilters p0 ++ cliDeclaredFilters args.postFilter] := by
      rw [hcli]
      dsimp only
      rw [filterCalls_append, filterCalls_append, ← he1, he5, filterCalls_aggregate,
        he7, filterStage_spec, hcomb]
      rfl
    refine ⟨?_, ?_, ?_⟩
    · intro l hl
      rw [hfc] at hl
      by_cases h0 :
        (pkgDeclaredFilters p0 ++ cliDeclaredFilters args.postFilter).length = 0
      · rw [if_pos h0] at hl
        exact absurd hl (List.not_mem_nil l)
      · rw [if_neg h0] at hl
        simpa using hl
    · rw [hfc]
      split <;> simp
    · intro hok
      rw [hcli] at hok
      simp at hok
  · rw [hL] at hL2
    simp only [Prod.mk.injEq, Except.ok.injEq] at hL2
    obtain ⟨he1, hp0, hbd, hip⟩ := hL2
    subst hp0
    have he5 := fst_of_eq hAg
    have he7 := fst_of_eq hFi
    have he8 := fst_of_eq hR
    have hcomb := pkgDeclaredFilters_standalone args.fragment p0 pkg hS
    have hfc : filterCalls (cli env args).1 =
        if (pkgDeclaredFilters p0 ++ cliDeclaredFilters args.postFilter).length = 0 then []
        else [pkgDeclaredFilters p0 ++ cliDeclaredFilters args.postFilter] := by
      rw [hcli]
      dsimp only
      rw [filterCalls_append, filterCalls_append, filterCalls_append, ← he1,
        he5, filterCalls_aggregate, he7, filterStage_spec, hcomb,
        he8, filterCalls_render]
      simp [filterCalls_nil]
    refine ⟨?_, ?_, ?_⟩
    · intro l hl
      rw [hfc] at hl
      by_cases h0 :
        (pkgDeclaredFilters p0 ++ cliDeclaredFilters args.postFilter).length = 0
      · rw [if_pos h0] at hl
        exact absurd hl (List.not_mem_nil l)
      · rw [if_neg h0] at hl
        simpa using hl
    · rw [hfc]
      split <;> simp
    · intro hok
      rw [hcli] at hok
      simp at hok
  · rw [hL] at hL2
    simp only [Prod.mk.injEq, Except.ok.injEq] at hL2
    obtain ⟨he1, hp0, hbd, hip⟩ := hL2
    subst hp0
    have he5 := fst_of_eq hAg
    have he7 := fst_of_eq hFi
    have he8 := fst_of_eq hR
    have he9 := fst_of_eq hO
    have hcomb := pkgDeclaredFilters_standalone args.fragment p0 pkg hS
    have hfc : filterCalls (cli env args).1 =
        if (pkgDeclaredFilters p0 ++ cliDeclaredFilters args.postFilter).length = 0 then []
        else [pkgDeclaredFilters p0 ++ cliDeclaredFilters args.postFilter] := by
      rw [hcli]
      dsimp only
      rw [filterCalls_append, filterCalls_append, filterCalls_append, filterCalls_append,
        ← he1, he5, filterCalls_aggregate, he7, filterStage_spec, hcomb,
        he8, filterCalls_render, he9, filterCalls_output]
      simp [filterCalls_nil]
    refine ⟨?_, ?_, ?_⟩
    · intro l hl
      rw [hfc] at hl
      by_cases h0 :
        (pkgDeclaredFilters p0 ++ cliDeclaredFilters args.postFilter).length = 0
      · rw [if_pos h0] at hl
        exact absurd hl (List.not_mem_nil l)
      · rw [if_neg h0] at hl
        simpa using hl
    · rw [hfc]
      split <;> simp
    · intro hok
      rw [hcli] at hok
      simp at hok
  · rw [hL] at hL2
    simp only [Prod.mk.injEq, Except.ok.injEq] at hL2
    obtain ⟨he1, hp0, hbd, hip⟩ := hL2
    subst hp0
    have he5 := fst_of_eq hAg
    have he7 := fst_of_eq hFi
    have he8 := fst_of_eq hR
    have he9 := fst_of_eq hO
    have hcomb := pkgDeclaredFilters_standalone args.fragment p0 pkg hS
    have hfc : filterCalls (cli env args).1 =
        if (pkgDeclaredFilters p0 ++ cliDeclaredFilters args.postFilter).length = 0 then []
        else [pkgDeclaredFilters p0 ++ cliDeclaredFilters args.postFilter] := by
      rw [hcli]
      dsimp only
      rw [filterCalls_append, filterCalls_append, filterCalls_append, filterCalls_append,
        ← he1, he5, filterCalls_aggregate, he7, filterStage_spec, hcomb,
        he8, filterCalls_render, he9, filterCalls_output]
      simp [filterCalls_nil]
    refine ⟨?_, ?_, ?_⟩
    · intro l hl
      rw [hfc] at hl
      by_cases h0 :
        (pkgDeclaredFilters p0 ++ cliDeclaredFilters args.postFilter).length = 0
      · rw [if_pos h0] at hl
        exact absurd hl (List.not_mem_nil l)
      · rw [if_neg h0] at hl
        simpa using hl
    · rw [hfc]
      split <;> simp
    · intro _
      exact hfc

/-- Witness for C6: the package run with package filter `foo` and CLI
filter `bar` invokes the filtering operation exactly once with
`[foo, bar]`. -/
theorem C6_witness :
    filterCalls (cli envPkg argsPkg).1 = [[JVal.vstr "foo", JVal.vstr "bar"]] := by
  have h := (C6_thm envPkg argsPkg pkgDescr "/cwd/" true rfl).2.2 rfl
  rw [h]
  rfl

/-! ## Claim C9 -/

/-- Claim C9 (output atomicity): a run produces exactly one output
artifact — one stdout emission or one successful file write — when it
completes (exit 0), and none when it aborts; in particular no error path
writes anything to stdout. -/
theorem C9_thm (env : Env) (args : Args) :
    (stdoutWrites (cli env args).1).length + (fileWrites (cli env args).1).length =
      (match (cli env args).2 with
       | .ok _ => 1
       | .error _ => 0) := by
  rcases cli_cases env args with
    ⟨e1, a, hL2, hcli⟩ |
    ⟨e1, p0', bd', ip', a, hL2, hS, hcli⟩ |
    ⟨e1, p0', bd', ip', pk, e3, a, hL2, hS, hF, hcli⟩ |
    ⟨e1, p0', bd', ip', pk, fmt, e4, a, hL2, hS, hF, hSo, hcli⟩ |
    ⟨e1, p0', bd', ip', pk, fmt, srcs, e5, a, hL2, hS, hF, hSo, hAg, hcli⟩ |
    ⟨e1, p0', bd', ip', pk, fmt, srcs, e5, raw, a, hL2, hS, hF, hSo, hAg, hP, hcli⟩ |
    ⟨e1, p0', bd', ip', pk, fmt, srcs, e5, raw, doc, e7, a,
      hL2, hS, hF, hSo, hAg, hP, hFi, hcli⟩ |
    ⟨e1, p0', bd', ip', pk, fmt, srcs, e5, raw, doc, e7, doc2, e8, a,
      hL2, hS, hF, hSo, hAg, hP, hFi, hR, hcli⟩ |
    ⟨e1, p0', bd', ip', pk, fmt, srcs, e5, raw, doc, e7, doc2, e8, out, e9, a,
      hL2, hS, hF, hSo, hAg, hP, hFi, hR, hO, hcli⟩ |
    ⟨e1, p0', bd', ip', pk, fmt, srcs, e5, raw, doc, e7, doc2, e8, out, e9,
      hL2, hS, hF, hSo, hAg, hP, hFi, hR, hO, hcli⟩
  · have he1 := fst_of_eq hL2
    rw [hcli]
    dsimp only
    rw [he1, stdoutWrites_load, fileWrites_load]
    rfl
  · have he1 := fst_of_eq hL2
    rw [hcli]
    dsimp only
    rw [he1, stdoutWrites_load, fileWrites_load]
    rfl
  · have he1 := fst_of_eq hL2
    have he3 := fst_of_eq hF
    rw [hcli]
    dsimp only
    rw [stdoutWrites_append, fileWrites_append, he1, stdoutWrites_load, fileWrites_load,
      he3, stdoutWrites_format, fileWrites_format]
    rfl
  · have he1 := fst_of_eq hL2
    have he4 := fst_of_eq hSo
    rw [hcli]
    dsimp only
    rw [stdoutWrites_append, fileWrites_append, he1, stdoutWrites_load, fileWrites_load,
      he4, stdoutWrites_sources, fileWrites_sources]
    rfl
  · have he1 := fst_of_eq hL2
    have he5 := fst_of_eq hAg
    rw [hcli]
    dsimp only
    rw [stdoutWrites_append, fileWrites_append, he1, stdoutWrites_load, fileWrites_load,
      he5, stdoutWrites_aggregate, fileWrites_aggregate]
    rfl
  · have he1 := fst_of_eq hL2
    have he5 := fst_of_eq hAg
    rw [hcli]
    dsimp only
    rw [stdoutWrites_append, fileWrites_append, he1, stdoutWrites_load, fileWrites_load,
      he5, stdoutWrites_aggregate, fileWrites_aggregate]
    rfl
  · have he1 := fst_of_eq hL2
    have he5 := fst_of_eq hAg
    have he7 := fst_of_eq hFi
    rw [hcli]
    dsimp only
    rw [stdoutWrites_append, stdoutWrites_append, fileWrites_append, fileWrites_append,
      he1, stdoutWrites_load, fileWrites_load, he5, stdoutWrites_aggregate,
      fileWrites_aggregate, he7, stdoutWrites_filter, fileWrites_filter]
    rfl
  · have he1 := fst_of_eq hL2
    have he5 := fst_of_eq hAg
    have he7 := fst_of_eq hFi
    have he8 := fst_of_eq hR
    rw [hcli]
    dsimp only
    rw [stdoutWrites_append, stdoutWrites_append, stdoutWrites_append,
      fileWrites_append, fileWrites_append, fileWrites_append,
      he1, stdoutWrites_load, fileWrites_load, he5, stdoutWrites_aggregate,
      fileWrites_aggregate, he7, stdoutWrites_filter, fileWrites_filter,
      he8, stdoutWrites_render, fileWrites_render]
    rfl
  · obtain ⟨ho1, ho2⟩ := outputStage_err_artifacts hO
    have he1 := fst_of_eq hL2
    have he5 := fst_of_eq hAg
    have he7 := fst_of_eq hFi
    have he8 := fst_of_eq hR
    rw [hcli]
    dsimp only
    rw [stdoutWrites_append, stdoutWrites_append, stdoutWrites_append, stdoutWrites_append,
      fileWrites_append, fileWrites_append, fileWrites_append, fileWrites_append,
      he1, stdoutWrites_load, fileWrites_load, he5, stdoutWrites_aggregate,
      fileWrites_aggregate, he7, stdoutWrites_filter, fileWrites_filter,
      he8, stdoutWrites_render, fileWrites_render, ho1, ho2]
    rfl
  · have h9 := outputStage_ok_artifacts hO
    have he1 := fst_of_eq hL2
    have he5 := fst_of_eq hAg
    have he7 := fst_of_eq hFi
    have he8 := fst_of_eq hR
    rw [hcli]
    dsimp only
    rw [stdoutWrites_append, stdoutWrites_append, stdoutWrites_append, stdoutWrites_append,
      fileWrites_append, fileWrites_append, fileWrites_append, fileWrites_append,
      he1, stdoutWrites_load, fileWrites_load, he5, stdoutWrites_aggregate,
      fileWrites_aggregate, he7, stdoutWrites_filter, fileWrites_filter,
      he8, stdoutWrites_render, fileWrites_render]
    simpa using h9

/-! ## Claim C10 -/

/-- A package record accepted by the sources check is an object. -/
theorem sourcesStage_ok_vobj {pkg : JVal} {e : List Effect} {srcs : List JVal}
    (h : sourcesStage pkg = (e, .ok srcs)) : ∃ fs, pkg = JVal.vobj fs := by
  unfold sourcesStage at h
  split at h
  next x xs heq =>
    cases pkg with
    | vobj fs => exact ⟨fs, rfl⟩
    | vnull => simp [getField] at heq
    | vbool b => simp [getField] at heq
    | vnum n => simp [getField] at heq
    | vstr s => simp [getField] at heq
    | varr l => simp [getField] at heq
  next =>
    rw [Prod.mk.injEq] at h
    cases h.2

/-- After the standalone-flag assignment succeeds and the record is an
object, its `standalone` field is the negated fragment flag. -/
theorem standalone_field_set (fr : Bool) (p0 pkg : JVal) (fs : List (String × JVal))
    (hS : standaloneStage fr p0 = ([], .ok pkg)) (hv : pkg = JVal.vobj fs) :
    getField pkg "standalone" = some (JVal.vbool (!fr)) := by
  cases p0 with
  | vobj fs0 =>
    simp only [standaloneStage, Prod.mk.injEq] at hS
    injection hS.2 with h2
    subst h2
    exact getField_setField_self fs0 "standalone" _
  | varr l =>
    simp only [standaloneStage, Prod.mk.injEq] at hS
    injection hS.2 with h2
    subst h2
    simp at hv
  | vnull => simp [standaloneStage] at hS
  | vbool b => simp [standaloneStage] at hS
  | vnum n => simp [standaloneStage] at hS
  | vstr s => simp [standaloneStage] at hS

/-- Claim C10: the package record handed to any renderer invocation — for
standalone `.bks` input as well as for package input — carries a
`standalone` field equal to the negation of the fragment flag, set before
any rendering. -/
theorem C10_thm (env : Env) (args : Args) (f : String) (d : Doc) (th : Theme) (pkg : JVal)
    (h : Effect.renderCall f d th pkg ∈ (cli env args).1) :
    getField pkg "standalone" = some (JVal.vbool (!args.fragment)) := by
  rcases cli_cases env args with
    ⟨e1, a, hL2, hcli⟩ |
    ⟨e1, p0', bd', ip', a, hL2, hS, hcli⟩ |
    ⟨e1, p0', bd', ip', pk, e3, a, hL2, hS, hF, hcli⟩ |
    ⟨e1, p0', bd', ip', pk, fmt, e4, a, hL2, hS, hF, hSo, hcli⟩ |
    ⟨e1, p0', bd', ip', pk, fmt, srcs, e5, a, hL2, hS, hF, hSo, hAg, hcli⟩ |
    ⟨e1, p0', bd', ip', pk, fmt, srcs, e5, raw, a, hL2, hS, hF, hSo, hAg, hP, hcli⟩ |
    ⟨e1, p0', bd', ip', pk, fmt, srcs, e5, raw, doc, e7, a,
      hL2, hS, hF, hSo, hAg, hP, hFi, hcli⟩ |
    ⟨e1, p0', bd', ip', pk, fmt, srcs, e5, raw, doc, e7, doc2, e8, a,
      hL2, hS, hF, hSo, hAg, hP, hFi, hR, hcli⟩ |
    ⟨e1, p0', bd', ip', pk, fmt, srcs, e5, raw, doc, e7, doc2, e8, out, e9, a,
      hL2, hS, hF, hSo, hAg, hP, hFi, hR, hO, hcli⟩ |
    ⟨e1, p0', bd', ip', pk, fmt, srcs, e5, raw, doc, e7, doc2, e8, out, e9,
      hL2, hS, hF, hSo, hAg, hP, hFi, hR, hO, hcli⟩
  · rw [hcli] at h
    dsimp only at h
    rw [fst_of_eq hL2] at h
    exact absurd h (not_renderCall_mem (renderCallsOf_load env args.source) f d th pkg)
  · rw [hcli] at h
    dsimp only at h
    rw [fst_of_eq hL2] at h
    exact absurd h (not_renderCall_mem (renderCallsOf_load env args.source) f d th pkg)
  · rw [hcli] at h
    dsimp only at h
    rcases List.mem_append.mp h with h2 | h2
    · rw [fst_of_eq hL2] at h2
      exact absurd h2 (not_renderCall_mem (renderCallsOf_load env args.source) f d th pkg)
    · rw [fst_of_eq hF] at h2
      exact absurd h2 (not_renderCall_mem (renderCallsOf_format args.format) f d th pkg)
  · rw [hcli] at h
    dsimp only at h
    rcases List.mem_append.mp h with h2 | h2
    · rw [fst_of_eq hL2] at h2
      exact absurd h2 (not_renderCall_mem (renderCallsOf_load env args.source) f d th pkg)
    · rw [fst_of_eq hSo] at h2
      exact absurd h2 (not_renderCall_mem (renderCallsOf_sources pk) f d th pkg)
  · rw [hcli] at h
    dsimp only at h
    rcases List.mem_append.mp h with h2 | h2
    · rw [fst_of_eq hL2] at h2
      exact absurd h2 (not_renderCall_mem (renderCallsOf_load env args.source) f d th pkg)
    · rw [fst_of_eq hAg] at h2
      exact absurd h2 (not_renderCall_mem (renderCallsOf_aggregate env bd' srcs "") f d th pkg)
  · rw [hcli] at h
    dsimp only at h
    rcases List.mem_append.mp h with h2 | h2
    · rw [fst_of_eq hL2] at h2
      exact absurd h2 (not_renderCall_mem (renderCallsOf_load env args.source) f d th pkg)
    · rw [fst_of_eq hAg] at h2
      exact absurd h2 (not_renderCall_mem (renderCallsOf_aggregate env bd' srcs "") f d th pkg)
  · rw [hcli] at h
    dsimp only at h
    rcases List.mem_append.mp h with h2 | h2
    rcases List.mem_append.mp h2 with h3 | h3
    · rw [fst_of_eq hL2] at h3
      exact absurd h3 (not_renderCall_mem (renderCallsOf_load env args.source) f d th pkg)
    · rw [fst_of_eq hAg] at h3
      exact absurd h3 (not_renderCall_mem (renderCallsOf_aggregate env bd' srcs "") f d th pkg)
    · rw [fst_of_eq hFi] at h2
      exact absurd h2
        (not_renderCall_mem (renderCallsOf_filter env pk args.postFilter doc) f d th pkg)
  · rw [hcli] at h
    dsimp only at h
    have he8 : e8 = [Effect.renderCall fmt doc2 (themeStep ip' doc2 pk).2
        (themeStep ip' doc2 pk).1] := by
      rw [fst_of_eq hR, renderStage_effs]
    rcases List.mem_append.mp h with h2 | h2
    · rcases List.mem_append.mp h2 with h3 | h3
      · rcases List.mem_append.mp h3 with h4 | h4
        · rw [fst_of_eq hL2] at h4
          exact absurd h4 (not_renderCall_mem (renderCallsOf_load env args.source) f d th pkg)
        · rw [fst_of_eq hAg] at h4
          exact absurd h4
            (not_renderCall_mem (renderCallsOf_aggregate env bd' srcs "") f d th pkg)
      · rw [fst_of_eq hFi] at h3
        exact absurd h3
          (not_renderCall_mem (renderCallsOf_filter env pk args.postFilter doc) f d th pkg)
    · rw [he8] at h2
      rw [List.mem_singleton] at h2
      injection h2 with hf hd hth hpkg
      rw [hpkg, getField_themeStep_ne ip' doc2 pk "standalone" (by decide)]
      obtain ⟨fs, hfs⟩ := sourcesStage_ok_vobj hSo
      exact standalone_field_set args.fragment p0' pk fs hS hfs
  · rw [hcli] at h
    dsimp only at h
    have he8 : e8 = [Effect.renderCall fmt doc2 (themeStep ip' doc2 pk).2
        (themeStep ip' doc2 pk).1] := by
      rw [fst_of_eq hR, renderStage_effs]
    rcases List.mem_append.mp h with h2 | h2
    · rcases List.mem_append.mp h2 with h3 | h3
      · rcases List.mem_append.mp h3 with h4 | h4
        · rcases List.mem_append.mp h4 with h5 | h5
          · rw [fst_of_eq hL2] at h5
            exact absurd h5
              (not_renderCall_mem (renderCallsOf_load env args.source) f d th pkg)
          · rw [fst_of_eq hAg] at h5
            exact absurd h5
              (not_renderCall_mem (renderCallsOf_aggregate env bd' srcs "") f d th pkg)
        · rw [fst_of_eq hFi] at h4
          exact absurd h4
            (not_renderCall_mem (renderCallsOf_filter env pk args.postFilter doc) f d th pkg)
      · rw [he8] at h3
        rw [List.mem_singleton] at h3
        injection h3 with hf hd hth hpkg
        rw [hpkg, getField_themeStep_ne ip' doc2 pk "standalone" (by decide)]
        obtain ⟨fs, hfs⟩ := sourcesStage_ok_vobj hSo
        exact standalone_field_set args.fragment p0' pk fs hS hfs
    · rw [fst_of_eq hO] at h2
      exact absurd h2
        (not_renderCall_mem (renderCallsOf_output env args.output out) f d th pkg)
  · rw [hcli] at h
    dsimp only at h
    have he8 : e8 = [Effect.renderCall fmt doc2 (themeStep ip' doc2 pk).2
        (themeStep ip' doc2 pk).1] := by
      rw [fst_of_eq hR, renderStage_effs]
    rcases List.mem_append.mp h with h2 | h2
    · rcases List.mem_append.mp h2 with h3 | h3
      · rcases List.mem_append.mp h3 with h4 | h4
        · rcases List.mem_append.mp h4 with h5 | h5
          · rw [fst_of_eq hL2] at h5
            exact absurd h5
              (not_renderCall_mem (renderCallsOf_load env args.source) f d th pkg)
          · rw [fst_of_eq hAg] at h5
            exact absurd h5
              (not_renderCall_mem (renderCallsOf_aggregate env bd' srcs "") f d th pkg)
        · rw [fst_of_eq hFi] at h4
          exact absurd h4
            (not_renderCall_mem (renderCallsOf_filter env pk args.postFilter doc) f d th pkg)
      · rw [he8] at h3
        rw [List.mem_singleton] at h3
        injection h3 with hf hd hth hpkg
        rw [hpkg, getField_themeStep_ne ip' doc2 pk "standalone" (by decide)]
        obtain ⟨fs, hfs⟩ := sourcesStage_ok_vobj hSo
        exact standalone_field_set args.fragment p0' pk fs hS hfs
    · rw [fst_of_eq hO] at h2
      exact absurd h2
        (not_renderCall_mem (renderCallsOf_output env args.output out) f d th pkg)

/-- Witness for C10: the standalone run's render invocation receives a
record with `standalone = true` (fragment flag unset). -/
theorem C10_witness :
    getField (JVal.vobj [("sources", JVal.varr [JVal.vstr "doc.bks"]),
      ("standalone", JVal.vbool true)]) "standalone" = some (JVal.vbool true) :=
  C10_thm envStd argsStd "html" { dtheme := none, payload := 0 } Theme.defaultTheme
    (JVal.vobj [("sources", JVal.varr [JVal.vstr "doc.bks"]), ("standalone", JVal.vbool true)])
    (show Effect.renderCall "html" { dtheme := none, payload := 0 } Theme.defaultTheme
        (JVal.vobj [("sources", JVal.varr [JVal.vstr "doc.bks"]),
          ("standalone", JVal.vbool true)]) ∈
        ([Effect.readFile "/cwd/doc.bks",
          Effect.renderCall "html" { dtheme := none, payload := 0 } Theme.defaultTheme
            (JVal.vobj [("sources", JVal.varr [JVal.vstr "doc.bks"]),
              ("standalone", JVal.vbool true)]),
          Effect.stdoutWrite ("out" ++ "\n")] : List Effect) from
      List.Mem.tail _ (List.Mem.head _))

/-! ## Claim C7 -/

/-- Claim C7: renderer dispatch is case-insensitive — every invocation
behaves identically to the same invocation with the lower-cased format
name — and when the lower-cased name is not a registered renderer
(reached after a successful load and standalone-flag assignment), the run
prints the unsupported-format error, displays the help, and exits 1. -/
theorem C7_thm (env : Env) (args : Args) :
    cli env args = cli env { args with format := toLowerCase args.format } ∧
    (∀ p0 bd ip pkg,
      loadPackage env args.source = ([], .ok (p0, bd, ip)) →
      standaloneStage args.fragment p0 = ([], .ok pkg) →
      availableRenderers.contains (toLowerCase args.format) = false →
      cli env args =
        ([Effect.errMsg ("Unsupported format \x27" ++ toLowerCase args.format ++ "\x27."),
          Effect.displayHelp],
         .error (.exited 1))) := by
  constructor
  · unfold cli afterLoad afterStandalone afterFormat afterSources afterAggregate
      afterParse afterFilter
    dsimp only
    rw [formatStage_toLower]
  · intro p0 bd ip pkg hL hS hbad
    have hF : formatStage args.format =
        ([Effect.errMsg ("Unsupported format \x27" ++ toLowerCase args.format ++ "\x27."),
          Effect.displayHelp],
         .error (.exited 1)) := by
      have hnot : ¬ availableRenderers.contains (toLowerCase args.format) = true := by
        rw [hbad]
        exact Bool.false_ne_true
      simp only [formatStage]
      rw [if_neg hnot]
    have hc : cli env args =
        (([] : List Effect) ++ (afterLoad env args (p0, bd, ip)).1,
         (afterLoad env args (p0, bd, ip)).2) := by
      unfold cli
      rw [hL, ebind_ok]
    unfold afterLoad at hc
    dsimp only at hc
    rw [hS, ebind_ok] at hc
    dsimp only at hc
    unfold afterStandalone at hc
    rw [hF, ebind_err] at hc
    dsimp only at hc
    rw [hc]
    rfl

/-- Witness for C7: the standalone run with format `XML` fails the
registry lookup with the lower-cased name in the message. -/
theorem C7_witness :
    cli envStd argsXml =
      ([Effect.errMsg ("Unsupported format \x27" ++ toLowerCase "XML" ++ "\x27."),
        Effect.displayHelp],
       .error (.exited 1)) :=
  (C7_thm envStd argsXml).2 (JVal.vobj [("sources", JVal.varr [JVal.vstr "doc.bks"])])
    (emptyEnv.cwd ++ "/") false
    (JVal.vobj [("sources", JVal.varr [JVal.vstr "doc.bks"]), ("standalone", JVal.vbool true)])
    rfl rfl rfl

/-! ## Claim C2 -/

/-- Claim C2, counterexample to the statement as written: on a completed
stdout run the bytes written to standard output are the renderer's output
followed by an appended newline (`console.log`), so they are not equal to
the renderer's output string. -/
theorem C2_counterexample :
    (cli envStd argsStd).2 = Except.ok () ∧
    argsStd.output = none ∧
    envStd.render = (fun _ _ _ _ => some "out") ∧
    stdoutWrites (cli envStd argsStd).1 = ["out" ++ "\n"] ∧
    ("out" ++ "\n" : String) ≠ "out" :=
  ⟨rfl, rfl, rfl, rfl, by decide⟩

/-- Claim C2 as amended: when no output path is given and the pipeline
completes (implicit exit 0), the renderer is invoked, its output string
followed by one appended newline is written to standard output exactly
once, and nothing is written to any file. -/
theorem C2_thm (env : Env) (args : Args)
    (hout : args.output = none) (hok : (cli env args).2 = Except.ok ()) :
    ∃ f d th p out, env.render f d th p = some out ∧
      Effect.renderCall f d th p ∈ (cli env args).1 ∧
      stdoutWrites (cli env args).1 = [out ++ "\n"] ∧
      fileWrites (cli env args).1 = [] := by
  rcases cli_cases env args with
    ⟨e1, a, hL2, hcli⟩ |
    ⟨e1, p0', bd', ip', a, hL2, hS, hcli⟩ |
    ⟨e1, p0', bd', ip', pk, e3, a, hL2, hS, hF, hcli⟩ |
    ⟨e1, p0', bd', ip', pk, fmt, e4, a, hL2, hS, hF, hSo, hcli⟩ |
    ⟨e1, p0', bd', ip', pk, fmt, srcs, e5, a, hL2, hS, hF, hSo, hAg, hcli⟩ |
    ⟨e1, p0', bd', ip', pk, fmt, srcs, e5, raw, a, hL2, hS, hF, hSo, hAg, hP, hcli⟩ |
    ⟨e1, p0', bd', ip', pk, fmt, srcs, e5, raw, doc, e7, a,
      hL2, hS, hF, hSo, hAg, hP, hFi, hcli⟩ |
    ⟨e1, p0', bd', ip', pk, fmt, srcs, e5, raw, doc, e7, doc2, e8, a,
      hL2, hS, hF, hSo, hAg, hP, hFi, hR, hcli⟩ |
    ⟨e1, p0', bd', ip', pk, fmt, srcs, e5, raw, doc, e7, doc2, e8, out, e9, a,
      hL2, hS, hF, hSo, hAg, hP, hFi, hR, hO, hcli⟩ |
    ⟨e1, p0', bd', ip', pk, fmt, srcs, e5, raw, doc, e7, doc2, e8, out, e9,
      hL2, hS, hF, hSo, hAg, hP, hFi, hR, hO, hcli⟩
  · rw [hcli] at hok
    simp at hok
  · rw [hcli] at hok
    simp at hok
  · rw [hcli] at hok
    simp at hok
  · rw [hcli] at hok
    simp at hok
  · rw [hcli] at hok
    simp at hok
  · rw [hcli] at hok
    simp at hok
  · rw [hcli] at hok
    simp at hok
  · rw [hcli] at hok
    simp at hok
  · rw [hcli] at hok
    simp at hok
  · obtain ⟨hrender, he8⟩ := renderStage_ok hR
    rw [hout] at hO
    simp only [outputStage, Prod.mk.injEq] at hO
    have he9 : [Effect.stdoutWrite (out ++ "\n")] = e9 := hO.1
    have he1 := fst_of_eq hL2
    have he5 := fst_of_eq hAg
    have he7 := fst_of_eq hFi
    refine ⟨fmt, doc2, (themeStep ip' doc2 pk).2, (themeStep ip' doc2 pk).1, out, hrender,
      ?_, ?_, ?_⟩
    · rw [hcli]
      dsimp only
      refine List.mem_append.mpr (Or.inl (List.mem_append.mpr (Or.inr ?_)))
      rw [he8]
      exact List.Mem.head _
    · rw [hcli]
      dsimp only
      rw [stdoutWrites_append, stdoutWrites_append, stdoutWrites_append, stdoutWrites_append,
        he1, stdoutWrites_load, he5, stdoutWrites_aggregate, he7, stdoutWrites_filter,
        he8, ← he9]
      rfl
    · rw [hcli]
      dsimp only
      rw [fileWrites_append, fileWrites_append, fileWrites_append, fileWrites_append,
        he1, fileWrites_load, he5, fileWrites_aggregate, he7, fileWrites_filter,
        he8, ← he9]
      rfl

/-- Witness for the amended C2: the standalone stdout run writes exactly
`out` plus a newline to stdout and nothing to any file. -/
theorem C2_witness :
    stdoutWrites (cli envStd argsStd).1 = ["out" ++ "\n"] ∧
    fileWrites (cli envStd argsStd).1 = [] := by
  obtain ⟨f, d, th, p, out, hr, hm, hs, hf⟩ := C2_thm envStd argsStd rfl rfl
  have hout : out = "out" := by
    have h2 : (some "out" : Option String) = some out := hr
    injection h2 with h3
    exact h3.symm
  subst hout
  exact ⟨hs, hf⟩
